import Mathlib

/-!
Verification of the type interning and canonicalization engine of
`crates/environ/src/compile/module_types.rs`.

The Rust code is shallowly embedded as follows:

* `ModuleTypesBuilder` and all of its methods (`intern_rec_group`,
  `define_new_rec_group`, `intern_trampoline_type`, `start_rec_group`,
  `end_rec_group`, `intern_type`, `wasm_sub_type_in_rec_group`,
  `rec_group_elements`, `trampoline_type`) and `WasmparserTypeConverter`
  with `lookup_heap_type` are translated directly from the source file.
* Mutable `&mut self` methods become explicit state passing: each
  operation returns the updated builder together with an `Outcome`.
  A Rust `?`-propagated `WasmResult` error is `Outcome.err`; a panic
  (`assert!`, `assert_eq!`, `expect`, `unwrap`, out-of-bounds map or
  slice indexing, `unreachable!`) is `Outcome.fatal` (for `Option`
  returning helpers such as `lookup_heap_type`, `none` plays the role
  of the panic).  On an error the partially mutated state is returned,
  matching Rust where `&mut self` mutations before a `?` persist; on a
  panic the state at the moment of the panic is returned (the Rust
  process would abort there).  `debug_assert!`s are no-ops, matching
  release-mode semantics.
* `HashMap`s become association lists with first-match lookup and
  insertion by consing (so insertion of an existing key shadows it,
  like `HashMap::insert`).
* The supporting container `ModuleTypes` (from `wasmtime-types`, not
  under `src/`), the `wasmparser` validator interface `TypesRef`, the
  conversion driver `convert_sub_type` of the `TypeConvert` trait and
  the ABI normalization `WasmFuncType::trampoline_type` are modelled
  from the spec; each carries a doc comment saying so.
-/

set_option autoImplicit false

namespace Wasmtime

/-! ## Data model -/

/-- Modelled from the spec: a reference inside an externally-defined type
body either points at another type by the checker's own id system
(`Id`), or is a module-local numeric index (`Module`); a rec-group
relative index (`RecGroup`) never reaches `lookup_heap_type`. -/
inductive UnpackedIndex where
  | Id (id : Nat)
  | Module (idx : Nat)
  | RecGroup (idx : Nat)
deriving DecidableEq, Repr

/-- Modelled from the spec: a heap type on the checker (wasmparser) side:
a concrete reference to another type, or an abstract heap type. -/
inductive PHeapType where
  | Concrete (u : UnpackedIndex)
  | Func
  | Any
deriving DecidableEq, Repr

/-- Modelled from the spec: a value type on the checker side.
`Unsupported` stands for "a construct the converter cannot represent",
the spec's recoverable conversion failure (§7). -/
inductive PValType where
  | I32
  | I64
  | F32
  | F64
  | Ref (nullable : Bool) (heap : PHeapType)
  | Unsupported
deriving DecidableEq, Repr

/-- Modelled from the spec: the tagged-union shape of one source type
definition: function, struct, or array. -/
inductive PCompositeType where
  | Array (elem : PValType)
  | Func (params : List PValType) (results : List PValType)
  | Struct (fields : List PValType)
deriving DecidableEq, Repr

/-- Modelled from the spec: one checker-side type definition
(`wasmparser::types::SubType`), exposing its composite type. -/
structure PSubType where
  composite_type : PCompositeType
deriving DecidableEq, Repr

/-- An index that may point either into "this session"'s canonical store
(`Module`) or to a host/engine scope (`Engine`); only the former is
produced by the converter. -/
inductive EngineOrModuleTypeIndex where
  | Module (idx : Nat)
  | Engine (idx : Nat)
deriving DecidableEq, Repr

/-- A canonicalized (Wasmtime-side) heap type. -/
inductive WasmHeapType where
  | ConcreteArray (i : EngineOrModuleTypeIndex)
  | ConcreteFunc (i : EngineOrModuleTypeIndex)
  | ConcreteStruct (i : EngineOrModuleTypeIndex)
  | Func
  | Any
deriving DecidableEq, Repr

/-- A canonicalized value type. -/
inductive WasmValType where
  | I32
  | I64
  | F32
  | F64
  | Ref (nullable : Bool) (heap : WasmHeapType)
deriving DecidableEq, Repr

/-- A canonicalized function signature. -/
structure WasmFuncType where
  params : List WasmValType
  results : List WasmValType
deriving DecidableEq, Repr

/-- A canonicalized composite type body. -/
inductive WasmCompositeType where
  | Array (elem : WasmValType)
  | Func (f : WasmFuncType)
  | Struct (fields : List WasmValType)
deriving DecidableEq, Repr

/-- One canonicalized type definition (the store's element type). -/
structure WasmSubType where
  composite_type : WasmCompositeType
deriving DecidableEq, Repr

/-- Modelled from the spec: the ABI normalization of a heap type used
when deriving trampoline signatures: concrete references are mapped to
the abstract top of their hierarchy. -/
def normHeapType : WasmHeapType → WasmHeapType
  | .ConcreteArray _ => .Any
  | .ConcreteStruct _ => .Any
  | .Any => .Any
  | .ConcreteFunc _ => .Func
  | .Func => .Func

/-- Modelled from the spec: ABI normalization of one value type:
reference-carrying shapes are mapped to a normalized calling form. -/
def normValType : WasmValType → WasmValType
  | .Ref _ h => .Ref true (normHeapType h)
  | .I32 => .I32
  | .I64 => .I64
  | .F32 => .F32
  | .F64 => .F64

/-- Modelled from the spec: `WasmFuncType::trampoline_type` (defined in
`wasmtime-types`, outside `src/`) derives the ABI-normalized
("trampoline") signature of a function signature.  The Rust function
returns `Cow::Borrowed` exactly when the result equals the input; the
embedding works with the resulting value and compares it with the
input where the `Cow` constructor is matched on. -/
def trampolineFuncType (f : WasmFuncType) : WasmFuncType :=
  { params := f.params.map normValType, results := f.results.map normValType }

/-- Result of running one builder operation: `ok` is a successful
return, `err` a recoverable `WasmResult` error and `fatal` a panic. -/
inductive Outcome (α : Type) where
  | ok (a : α)
  | err (msg : String)
  | fatal (msg : String)
deriving DecidableEq, Repr

/-- First-match association list lookup (the embedding of `HashMap` /
`SecondaryMap` reads). -/
def alookup {α β : Type} [DecidableEq α] : List (α × β) → α → Option β
  | [], _ => none
  | (a, b) :: rest, k => if k = a then some b else alookup rest k

/-- Modelled from the spec: the canonical type store `ModuleTypes`
(defined in `wasmtime-environ`, outside `src/`): an append-only
sequence of canonical type definitions, an append-only sequence of
half-open canonical group ranges, and the trampoline back-pointers
(one per function type, set as a follow-up write). -/
structure ModuleTypes where
  wasm_types : List WasmSubType
  rec_groups : List (Nat × Nat)
  trampolines : List (Nat × Nat)
deriving DecidableEq, Repr

/-- Modelled from the spec: number of types pushed so far. -/
def ModuleTypes.len_types (t : ModuleTypes) : Nat :=
  t.wasm_types.length

/-- Modelled from the spec: the index the next `push` will assign. -/
def ModuleTypes.next_ty (t : ModuleTypes) : Nat :=
  t.len_types

/-- Modelled from the spec: append one canonical type, returning its
index. -/
def ModuleTypes.push (t : ModuleTypes) (ty : WasmSubType) : ModuleTypes :=
  { t with wasm_types := t.wasm_types ++ [ty] }

/-- Modelled from the spec: read-only indexed lookup into the store. -/
def ModuleTypes.get (t : ModuleTypes) (i : Nat) : Option WasmSubType :=
  t.wasm_types.get? i

/-- Modelled from the spec: the index the next `push_rec_group` will
assign. -/
def ModuleTypes.next_rec_group (t : ModuleTypes) : Nat :=
  t.rec_groups.length

/-- Modelled from the spec: append one canonical group range. -/
def ModuleTypes.push_rec_group (t : ModuleTypes) (r : Nat × Nat) : ModuleTypes :=
  { t with rec_groups := t.rec_groups ++ [r] }

/-- Modelled from the spec: record the trampoline back-pointer of a
function type (a follow-up write, set at most once per index). -/
def ModuleTypes.set_trampoline_type (t : ModuleTypes) (i v : Nat) : ModuleTypes :=
  { t with trampolines := (i, v) :: t.trampolines }

/-- Modelled from the spec: read a trampoline back-pointer. -/
def ModuleTypes.trampoline_type (t : ModuleTypes) (i : Nat) : Option Nat :=
  alookup t.trampolines i

/-- Modelled from the spec: the contiguous canonical indices of an
already-pushed group, in order (`none` models the panic on an
out-of-range group index). -/
def ModuleTypes.rec_group_elements (t : ModuleTypes) (g : Nat) : Option (List Nat) :=
  (t.rec_groups.get? g).map fun r => List.range' r.1 (r.2 - r.1)

/-- `RecGroupStart`: bookkeeping for the recursion group currently being
defined (`rec_group_index`, reserved range `start..stop`). -/
structure RecGroupStart where
  rec_group_index : Nat
  start : Nat
  stop : Nat
deriving DecidableEq, Repr

/-- `ModuleTypesBuilder`: the canonical store plus the three dedup
tables and the transient in-progress-group state. -/
structure ModuleTypesBuilder where
  validator_id : Nat
  types : ModuleTypes
  trampoline_types : List (WasmFuncType × Nat)
  wasmparser_to_wasmtime : List (Nat × Nat)
  already_seen : List (Nat × Nat)
  defining_rec_group : Option RecGroupStart
deriving DecidableEq, Repr

/-- `ModuleTypesBuilder::new`, bound to one validator id. -/
def ModuleTypesBuilder.new (validator_id : Nat) : ModuleTypesBuilder :=
  { validator_id := validator_id
    types := ⟨[], [], []⟩
    trampoline_types := []
    wasmparser_to_wasmtime := []
    already_seen := []
    defining_rec_group := none }

/-- Modelled from the spec: the checker interface (spec §6 upstream):
a session id, indexed access to type definitions, the members of a
recursion group in the checker's fixed declared order, and the owning
group of a type id. -/
structure TypesRef where
  id : Nat
  typeOf : Nat → Option PSubType
  rec_group_elements : Nat → List Nat
  rec_group_id_of : Nat → Nat

/-- The caller-supplied module with its type-index table
(`module.types : TypeIndex -> ModuleInternedTypeIndex`). -/
structure Module where
  types : List Nat

/-- `WasmparserTypeConverter`: an immutable borrow of the builder and
module plus the optional active rec group context. -/
structure WasmparserTypeConverter where
  types : ModuleTypesBuilder
  module : Module
  rec_group_context : Option (TypesRef × Nat)

/-! ## Reference resolution (`lookup_heap_type`) -/

/-- The classification match on a canonical store entry shared by both
arms of `lookup_heap_type`. -/
def classifyW (ty : WasmSubType) (index : EngineOrModuleTypeIndex) : WasmHeapType :=
  match ty.composite_type with
  | .Array _ => .ConcreteArray index
  | .Func _ => .ConcreteFunc index
  | .Struct _ => .ConcreteStruct index

/-- The classification match on a checker-side definition shared by
both fallback arms of `lookup_heap_type`. -/
def classifyP (ty : PSubType) (index : EngineOrModuleTypeIndex) : WasmHeapType :=
  match ty.composite_type with
  | .Array _ => .ConcreteArray index
  | .Func _ _ => .ConcreteFunc index
  | .Struct _ => .ConcreteStruct index

/-- `WasmparserTypeConverter::lookup_heap_type` (lines 374-437).
`none` models the panics (missing map entry, `unwrap`, the two
`panic!("forward reference to type outside of rec group?")` and the
`unreachable!()` for `RecGroup`). -/
def lookup_heap_type (c : WasmparserTypeConverter) : UnpackedIndex → Option WasmHeapType
  | .Id id =>
    match alookup c.types.wasmparser_to_wasmtime id with
    | none => none
    | some interned =>
      let index := EngineOrModuleTypeIndex.Module interned
      match c.types.types.get interned with
      | some ty => some (classifyW ty index)
      | none =>
        match c.rec_group_context with
        | some (wasmparser_types, _) =>
          match wasmparser_types.typeOf id with
          | some pty => some (classifyP pty index)
          | none => none
        | none => none
  | .Module module_index =>
    match c.module.types.get? module_index with
    | none => none
    | some interned =>
      let index := EngineOrModuleTypeIndex.Module interned
      match c.types.types.get interned with
      | some ty => some (classifyW ty index)
      | none =>
        match c.rec_group_context with
        | some (parser_types, rec_group) =>
          let rec_group_index := interned - c.types.types.len_types
          match (parser_types.rec_group_elements rec_group).get? rec_group_index with
          | some id =>
            match parser_types.typeOf id with
            | some pty => some (classifyP pty index)
            | none => none
          | none => none
        | none => none
  | .RecGroup _ => none

/-! ## Conversion driver -/

/-- Modelled from the spec: conversion of one value type (the
`TypeConvert` trait driver lives in `wasmtime-types`, outside `src/`):
every concrete reference is resolved through `lookup_heap_type`; an
unsupported construct is the recoverable error (§7); a failing
resolution is the fatal fault. -/
def convert_val_type (c : WasmparserTypeConverter) : PValType → Outcome WasmValType
  | .I32 => .ok .I32
  | .I64 => .ok .I64
  | .F32 => .ok .F32
  | .F64 => .ok .F64
  | .Unsupported => .err "unsupported construct"
  | .Ref n .Func => .ok (.Ref n .Func)
  | .Ref n .Any => .ok (.Ref n .Any)
  | .Ref n (.Concrete u) =>
    match lookup_heap_type c u with
    | some h => .ok (.Ref n h)
    | none => .fatal "lookup_heap_type"

/-- Modelled from the spec: conversion of a list of value types,
stopping at the first failure. -/
def convert_val_list (c : WasmparserTypeConverter) : List PValType → Outcome (List WasmValType)
  | [] => .ok []
  | v :: rest =>
    match convert_val_type c v with
    | .ok w =>
      match convert_val_list c rest with
      | .ok ws => .ok (w :: ws)
      | .err m => .err m
      | .fatal m => .fatal m
    | .err m => .err m
    | .fatal m => .fatal m

/-- Modelled from the spec: `convert_sub_type`, translating one
externally-defined type body into canonical form (§4.2), preserving
the array/function/struct shape. -/
def convert_sub_type (c : WasmparserTypeConverter) (t : PSubType) : Outcome WasmSubType :=
  match t.composite_type with
  | .Array e =>
    match convert_val_type c e with
    | .ok w => .ok ⟨.Array w⟩
    | .err m => .err m
    | .fatal m => .fatal m
  | .Func ps rs =>
    match convert_val_list c ps with
    | .ok ws =>
      match convert_val_list c rs with
      | .ok wrs => .ok ⟨.Func ⟨ws, wrs⟩⟩
      | .err m => .err m
      | .fatal m => .fatal m
    | .err m => .err m
    | .fatal m => .fatal m
  | .Struct fs =>
    match convert_val_list c fs with
    | .ok ws => .ok ⟨.Struct ws⟩
    | .err m => .err m
    | .fatal m => .fatal m

/-! ## The interner's operations -/

/-- Helper of `start_rec_group`: the loop eagerly inserting the
reserved index `base + i` for the member at position `i`. -/
def insertReserved (m : List (Nat × Nat)) (base i : Nat) : List Nat → List (Nat × Nat)
  | [] => m
  | id :: rest => insertReserved ((id, base + i) :: m) base (i + 1) rest

/-- `ModuleTypesBuilder::start_rec_group` (lines 180-213): asserts no
group is in flight and the validator matches, eagerly reserves the
contiguous indices for all members and records the
`defining_rec_group` metadata. -/
def start_rec_group (S : ModuleTypesBuilder) (validator_types : TypesRef)
    (elems : List Nat) : ModuleTypesBuilder × Outcome Unit :=
  if S.defining_rec_group.isSome then (S, .fatal "already defining a rec group")
  else if validator_types.id ≠ S.validator_id then (S, .fatal "validator mismatch")
  else
    ({ S with
        wasmparser_to_wasmtime :=
          insertReserved S.wasmparser_to_wasmtime S.types.len_types 0 elems
        defining_rec_group :=
          some ⟨S.types.next_rec_group, S.types.next_ty, S.types.len_types + elems.length⟩ },
     .ok ())

/-- `ModuleTypesBuilder::end_rec_group` (lines 216-243): consumes the
in-flight metadata, appends the canonical group range, records the
group in the group-dedup table und returns the group index. -/
def end_rec_group (S : ModuleTypesBuilder) (rec_group_id : Nat) :
    ModuleTypesBuilder × Outcome Nat :=
  match S.defining_rec_group with
  | none => (S, .fatal "should be defining a rec group")
  | some rgs =>
    ({ S with
        types := S.types.push_rec_group (rgs.start, rgs.stop)
        already_seen := (rec_group_id, rgs.rec_group_index) :: S.already_seen
        defining_rec_group := none },
     .ok rgs.rec_group_index)

/-- `ModuleTypesBuilder::wasm_sub_type_in_rec_group` (lines 276-294):
push one converted member body while a rec group is being defined. -/
def wasm_sub_type_in_rec_group (S : ModuleTypesBuilder) (ty : WasmSubType) :
    ModuleTypesBuilder × Outcome Nat :=
  if S.defining_rec_group.isNone then
    (S, .fatal "must be defining a rec group to define new types")
  else
    ({ S with types := S.types.push ty }, .ok S.types.len_types)

/-- The member-conversion loop of `define_new_rec_group`
(lines 112-118): for each member in the checker's order, convert its
body with the converter configured `with_rec_group` and push it. -/
def convertMembers (module : Module) (validator_types : TypesRef) (rec_group_id : Nat) :
    ModuleTypesBuilder → List Nat → ModuleTypesBuilder × Outcome Unit
  | S, [] => (S, .ok ())
  | S, id :: rest =>
    match validator_types.typeOf id with
    | none => (S, .fatal "validator type lookup")
    | some ty =>
      let conv : WasmparserTypeConverter :=
        { types := S, module := module
          rec_group_context := some (validator_types, rec_group_id) }
      match convert_sub_type conv ty with
      | .err m => (S, .err m)
      | .fatal m => (S, .fatal m)
      | .ok wasm_ty =>
        match wasm_sub_type_in_rec_group S wasm_ty with
        | (S', .ok _) => convertMembers module validator_types rec_group_id S' rest
        | (S', .err m) => (S', .err m)
        | (S', .fatal m) => (S', .fatal m)

/-- `ModuleTypesBuilder::intern_trampoline_type` (lines 139-177): get or
create the trampoline type of `for_func_ty`.  The `Cow` returned by
`trampoline_type()` is embedded by comparing the derived signature
with the original (`Cow::Borrowed` is the equal case). -/
def intern_trampoline_type (S : ModuleTypesBuilder) (for_func_ty : Nat) :
    ModuleTypesBuilder × Outcome Nat :=
  match S.types.get for_func_ty with
  | some st =>
    match st.composite_type with
    | .Func f =>
      let trampoline := trampolineFuncType f
      match alookup S.trampoline_types trampoline with
      | some idx => (S, .ok idx)
      | none =>
        if trampoline = f then
          ({ S with trampoline_types := (f, for_func_ty) :: S.trampoline_types },
           .ok for_func_ty)
        else
          let idx := S.types.next_ty
          let t1 := (S.types.push ⟨.Func trampoline⟩).set_trampoline_type idx idx
          let t2 := t1.push_rec_group (idx, t1.next_ty)
          ({ S with
              types := t2
              trampoline_types := (trampoline, idx) :: S.trampoline_types },
           .ok idx)
    | _ => (S, .fatal "unwrap_func")
  | none => (S, .fatal "unwrap_func")

/-- The post-pass of `define_new_rec_group` (lines 127-132): give every
function-shaped member of the just-closed group its trampoline
back-pointer. -/
def trampolinePass : ModuleTypesBuilder → List Nat → ModuleTypesBuilder × Outcome Unit
  | S, [] => (S, .ok ())
  | S, ty :: rest =>
    match S.types.get ty with
    | none => (S, .fatal "index out of bounds")
    | some st =>
      match st.composite_type with
      | .Func _ =>
        match intern_trampoline_type S ty with
        | (S1, .ok trampoline) =>
          trampolinePass { S1 with types := S1.types.set_trampoline_type ty trampoline } rest
        | (S1, .err m) => (S1, .err m)
        | (S1, .fatal m) => (S1, .fatal m)
      | _ => trampolinePass S rest

/-- `ModuleTypesBuilder::define_new_rec_group` (lines 99-135). -/
def define_new_rec_group (S : ModuleTypesBuilder) (module : Module)
    (validator_types : TypesRef) (rec_group_id : Nat) :
    ModuleTypesBuilder × Outcome Nat :=
  if validator_types.id ≠ S.validator_id then (S, .fatal "validator mismatch")
  else
    match start_rec_group S validator_types (validator_types.rec_group_elements rec_group_id) with
    | (S1, .ok _) =>
      match convertMembers module validator_types rec_group_id S1
          (validator_types.rec_group_elements rec_group_id) with
      | (S2, .ok _) =>
        match end_rec_group S2 rec_group_id with
        | (S3, .ok rec_group_index) =>
          match S3.types.rec_group_elements rec_group_index with
          | some tys =>
            match trampolinePass S3 tys with
            | (S4, .ok _) => (S4, .ok rec_group_index)
            | (S4, .err m) => (S4, .err m)
            | (S4, .fatal m) => (S4, .fatal m)
          | none => (S3, .fatal "rec group elements")
        | (S3, .err m) => (S3, .err m)
        | (S3, .fatal m) => (S3, .fatal m)
      | (S2, .err m) => (S2, .err m)
      | (S2, .fatal m) => (S2, .fatal m)
    | (S1, .err m) => (S1, .err m)
    | (S1, .fatal m) => (S1, .fatal m)

/-- `ModuleTypesBuilder::intern_rec_group` (lines 83-96): assert the
validator matches, return the cached group index if the group was
already interned, otherwise define it afresh. -/
def intern_rec_group (S : ModuleTypesBuilder) (module : Module)
    (validator_types : TypesRef) (rec_group_id : Nat) :
    ModuleTypesBuilder × Outcome Nat :=
  if validator_types.id ≠ S.validator_id then (S, .fatal "validator mismatch")
  else
    match alookup S.already_seen rec_group_id with
    | some interned => (S, .ok interned)
    | none => define_new_rec_group S module validator_types rec_group_id

/-- `ModuleTypesBuilder::intern_type` (lines 251-273): intern the whole
owning rec group of `id`, then look up `id`'s own index. -/
def intern_type (S : ModuleTypesBuilder) (module : Module)
    (validator_types : TypesRef) (id : Nat) : ModuleTypesBuilder × Outcome Nat :=
  if S.defining_rec_group.isSome then (S, .fatal "must not be defining a rec group")
  else if validator_types.id ≠ S.validator_id then (S, .fatal "validator mismatch")
  else
    match intern_rec_group S module validator_types (validator_types.rec_group_id_of id) with
    | (S', .ok _) =>
      match alookup S'.wasmparser_to_wasmtime id with
      | some t => (S', .ok t)
      | none => (S', .fatal "map index")
    | (S', .err m) => (S', .err m)
    | (S', .fatal m) => (S', .fatal m)

/-- `ModuleTypesBuilder::rec_group_elements` (lines 302-307). -/
def ModuleTypesBuilder.rec_group_elements (S : ModuleTypesBuilder) (g : Nat) :
    Option (List Nat) :=
  S.types.rec_group_elements g

/-- `ModuleTypesBuilder::trampoline_type` (lines 324-326). -/
def ModuleTypesBuilder.trampoline_type (S : ModuleTypesBuilder) (t : Nat) : Option Nat :=
  S.types.trampoline_type t

/-- The signature stored at index `t`, when it is a function type. -/
def ModuleTypesBuilder.sigAt (S : ModuleTypesBuilder) (t : Nat) : Option WasmFuncType :=
  match S.types.get t with
  | some st =>
    match st.composite_type with
    | .Func f => some f
    | _ => none
  | none => none

/-! ## Basic list lemmas -/

lemma get?_append_some {α : Type} {l l' : List α} {i : Nat} {x : α}
    (h : l.get? i = some x) : (l ++ l').get? i = some x := by
  have hi : i < l.length := by
    by_contra hn
    rw [List.get?_eq_none.2 (Nat.le_of_not_lt hn)] at h
    exact Option.noConfusion h
  rw [List.get?_append hi]
  exact h

lemma alookup_cons {α β : Type} [DecidableEq α] (a : α) (b : β) (l : List (α × β)) (k : α) :
    alookup ((a, b) :: l) k = if k = a then some b else alookup l k := rfl

/-- Reserving indices for ids not containing `k` does not change `k`'s
binding. -/
lemma alookup_insertReserved_not_mem {elems : List Nat} {k : Nat} (hk : k ∉ elems) :
    ∀ (m : List (Nat × Nat)) (base i : Nat),
    alookup (insertReserved m base i elems) k = alookup m k := by
  induction elems with
  | nil => intro m base i; rfl
  | cons a rest ih =>
    intro m base i
    have hka : k ≠ a := fun h => hk (h ▸ List.mem_cons_self a rest)
    have hkr : k ∉ rest := fun h => hk (List.mem_cons_of_mem a h)
    show alookup (insertReserved ((a, base + i) :: m) base (i + 1) rest) k = alookup m k
    rw [ih hkr]
    simp [alookup, hka]

/-- After the reservation loop, the member at position `i` is bound to
`base + (j + i)`. -/
lemma alookup_insertReserved_get :
    ∀ (elems : List Nat), elems.Nodup →
    ∀ (m : List (Nat × Nat)) (base j i : Nat) (h : i < elems.length),
    alookup (insertReserved m base j elems) (elems.get ⟨i, h⟩) = some (base + (j + i)) := by
  intro elems
  induction elems with
  | nil => intro _ m base j i h; exact absurd h (Nat.not_lt_zero i)
  | cons a rest ih =>
    intro hnd m base j i h
    match i with
    | 0 =>
      have ha : a ∉ rest := (List.nodup_cons.1 hnd).1
      show alookup (insertReserved ((a, base + j) :: m) base (j + 1) rest) a = _
      rw [alookup_insertReserved_not_mem ha]
      simp [alookup]
    | (i' + 1) =>
      have hnd' : rest.Nodup := (List.nodup_cons.1 hnd).2
      show alookup (insertReserved ((a, base + j) :: m) base (j + 1) rest)
        (rest.get ⟨i', Nat.lt_of_succ_lt_succ h⟩) = _
      rw [ih hnd' ((a, base + j) :: m) base (j + 1) i' (Nat.lt_of_succ_lt_succ h)]
      congr 1
      omega

/-! ## Inversion and frame lemmas for the interner's operations -/

/-- Inversion of a successful `start_rec_group`. -/
lemma start_ok_inv {S S' : ModuleTypesBuilder} {V : TypesRef} {elems : List Nat} {u : Unit}
    (h : start_rec_group S V elems = (S', .ok u)) :
    S.defining_rec_group = none ∧ V.id = S.validator_id ∧
    S' = { S with
            wasmparser_to_wasmtime :=
              insertReserved S.wasmparser_to_wasmtime S.types.len_types 0 elems
            defining_rec_group :=
              some ⟨S.types.next_rec_group, S.types.next_ty,
                S.types.len_types + elems.length⟩ } := by
  rw [start_rec_group] at h
  split at h
  · exact absurd (congrArg Prod.snd h) (by simp)
  · split at h
    · exact absurd (congrArg Prod.snd h) (by simp)
    · rename_i hdef hid
      refine ⟨Option.not_isSome_iff_eq_none.1 hdef, by omega, ?_⟩
      exact (congrArg Prod.fst h).symm

/-- Inversion of a successful `end_rec_group`. -/
lemma end_ok_inv {S S' : ModuleTypesBuilder} {gid g : Nat}
    (h : end_rec_group S gid = (S', .ok g)) :
    ∃ rgs : RecGroupStart, S.defining_rec_group = some rgs ∧ g = rgs.rec_group_index ∧
      S' = { S with
              types := S.types.push_rec_group (rgs.start, rgs.stop)
              already_seen := (gid, rgs.rec_group_index) :: S.already_seen
              defining_rec_group := none } := by
  rw [end_rec_group] at h
  split at h
  · exact absurd (congrArg Prod.snd h) (by simp)
  · rename_i rgs hdef
    have h1 := congrArg Prod.fst h
    have h2 := congrArg Prod.snd h
    simp only at h1 h2
    exact ⟨rgs, hdef, by cases h2; rfl, h1.symm⟩

/-- Everything the member-conversion loop does to the builder: it only
appends converted bodies to `wasm_types` (one per member on success)
and touches nothing else.  In particular the reserved dedup-table
entries, the in-flight group metadata and the group-dedup table
survive unchanged, on failures as well. -/
lemma convertMembers_spec (module : Module) (V : TypesRef) (gid : Nat) :
    ∀ (ids : List Nat) (S S' : ModuleTypesBuilder) (r : Outcome Unit),
    convertMembers module V gid S ids = (S', r) →
    S'.validator_id = S.validator_id ∧
    S'.trampoline_types = S.trampoline_types ∧
    S'.wasmparser_to_wasmtime = S.wasmparser_to_wasmtime ∧
    S'.already_seen = S.already_seen ∧
    S'.defining_rec_group = S.defining_rec_group ∧
    S'.types.rec_groups = S.types.rec_groups ∧
    S'.types.trampolines = S.types.trampolines ∧
    ∃ l, S'.types.wasm_types = S.types.wasm_types ++ l ∧
      (r = .ok () → l.length = ids.length) := by
  intro ids
  induction ids with
  | nil =>
    intro S S' r h
    cases h
    exact ⟨rfl, rfl, rfl, rfl, rfl, rfl, rfl, [], by simp, fun _ => rfl⟩
  | cons id rest ih =>
    intro S S' r h
    simp only [convertMembers] at h
    split at h
    · cases h
      exact ⟨rfl, rfl, rfl, rfl, rfl, rfl, rfl, [], by simp, by simp⟩
    · split at h
      · cases h
        exact ⟨rfl, rfl, rfl, rfl, rfl, rfl, rfl, [], by simp, by simp⟩
      · cases h
        exact ⟨rfl, rfl, rfl, rfl, rfl, rfl, rfl, [], by simp, by simp⟩
      · rename_i wasm_ty heqc
        split at h
        · rename_i S'' n heq
          rw [wasm_sub_type_in_rec_group] at heq
          split at heq
          · exact absurd (congrArg Prod.snd heq) (by simp)
          · have hS'' := congrArg Prod.fst heq
            simp only at hS''
            obtain ⟨h1, h2, h3, h4, h5, h6, h7, l', hl', hlen⟩ := ih _ _ _ h
            subst hS''
            refine ⟨h1, h2, h3, h4, h5, h6, h7, wasm_ty :: l', ?_, ?_⟩
            · rw [hl']
              simp [ModuleTypes.push]
            · intro hr
              simp [hlen hr]
        · rename_i S'' m heq
          rw [wasm_sub_type_in_rec_group] at heq
          split at heq
          · exact absurd (congrArg Prod.snd heq) (by simp)
          · exact absurd (congrArg Prod.snd heq) (by simp)
        · rename_i S'' m heq
          rw [wasm_sub_type_in_rec_group] at heq
          split at heq
          · injection heq with h1 h2
            subst h1
            cases h
            exact ⟨rfl, rfl, rfl, rfl, rfl, rfl, rfl, [], by simp, by simp⟩
          · exact absurd (congrArg Prod.snd heq) (by simp)

/-- Frame of `intern_trampoline_type`: only the store (by appending),
the trampoline back-pointers at fresh indices and the trampoline
cache (by inserting a previously absent key) change; it never returns
a recoverable error. -/
lemma intern_trampoline_type_frame (S : ModuleTypesBuilder) (t : Nat) :
    ∀ (S1 : ModuleTypesBuilder) (r : Outcome Nat),
    intern_trampoline_type S t = (S1, r) →
    S1.validator_id = S.validator_id ∧
    S1.wasmparser_to_wasmtime = S.wasmparser_to_wasmtime ∧
    S1.already_seen = S.already_seen ∧
    S1.defining_rec_group = S.defining_rec_group ∧
    (∃ l, S1.types.wasm_types = S.types.wasm_types ++ l) ∧
    (∃ l, S1.types.rec_groups = S.types.rec_groups ++ l) ∧
    (∀ i, i < S.types.len_types →
      S1.types.trampoline_type i = S.types.trampoline_type i) ∧
    (∀ κ v, alookup S.trampoline_types κ = some v →
      alookup S1.trampoline_types κ = some v) ∧
    (∀ m, r ≠ .err m) := by
  intro S1 r h
  rw [intern_trampoline_type] at h
  split at h
  · rename_i st hget
    split at h
    · rename_i f hf
      simp only [] at h
      split at h
      · cases h
        exact ⟨rfl, rfl, rfl, rfl, ⟨[], by simp⟩, ⟨[], by simp⟩,
          fun i _ => rfl, fun κ v hv => hv, by simp⟩
      · rename_i hmiss
        split at h
        · rename_i heqf
          cases h
          refine ⟨rfl, rfl, rfl, rfl, ⟨[], by simp⟩, ⟨[], by simp⟩,
            fun i _ => rfl, ?_, by simp⟩
          intro κ v hv
          rw [alookup_cons]
          split
          · rename_i hκ
            rw [hκ, ← heqf, hmiss] at hv
            exact Option.noConfusion hv
          · exact hv
        · cases h
          refine ⟨rfl, rfl, rfl, rfl, ⟨_, rfl⟩, ⟨_, rfl⟩, ?_, ?_, by simp⟩
          · intro i hi
            show alookup ((S.types.next_ty, S.types.next_ty) :: S.types.trampolines) i = _
            rw [alookup_cons]
            split
            · rename_i hik
              exact absurd hik (by simp [ModuleTypes.next_ty]; omega)
            · rfl
          · intro κ v hv
            rw [alookup_cons]
            split
            · rename_i hκ
              rw [hκ, hmiss] at hv
              exact Option.noConfusion hv
            · exact hv
    · cases h
      exact ⟨rfl, rfl, rfl, rfl, ⟨[], by simp⟩, ⟨[], by simp⟩,
        fun i _ => rfl, fun κ v hv => hv, by simp⟩
  · cases h
    exact ⟨rfl, rfl, rfl, rfl, ⟨[], by simp⟩, ⟨[], by simp⟩,
      fun i _ => rfl, fun κ v hv => hv, by simp⟩

/-- Frame of the trampoline post-pass over the member indices `l`:
builder fields other than the store and trampoline tables are
untouched, the store only grows, existing cache bindings keep their
value, back-pointers strictly below the processed indices and the
pre-pass store length are untouched, and the pass never returns a
recoverable error. -/
lemma trampolinePass_frame :
    ∀ (l : List Nat) (S S' : ModuleTypesBuilder) (r : Outcome Unit),
    trampolinePass S l = (S', r) →
    S'.validator_id = S.validator_id ∧
    S'.wasmparser_to_wasmtime = S.wasmparser_to_wasmtime ∧
    S'.already_seen = S.already_seen ∧
    S'.defining_rec_group = S.defining_rec_group ∧
    (∀ i ty, S.types.wasm_types.get? i = some ty →
      S'.types.wasm_types.get? i = some ty) ∧
    (∀ g rg, S.types.rec_groups.get? g = some rg →
      S'.types.rec_groups.get? g = some rg) ∧
    S.types.len_types ≤ S'.types.len_types ∧
    (∀ κ v, alookup S.trampoline_types κ = some v →
      alookup S'.trampoline_types κ = some v) ∧
    (∀ i, i < S.types.len_types → (∀ e ∈ l, i < e) →
      S'.types.trampoline_type i = S.types.trampoline_type i) ∧
    (∀ m, r ≠ .err m) := by
  intro l
  induction l with
  | nil =>
    intro S S' r h
    cases h
    exact ⟨rfl, rfl, rfl, rfl, fun _ _ hv => hv, fun _ _ hv => hv, Nat.le_refl _,
      fun _ _ hv => hv, fun _ _ _ => rfl, by simp⟩
  | cons ty rest ih =>
    intro S S' r h
    rw [trampolinePass] at h
    split at h
    · cases h
      exact ⟨rfl, rfl, rfl, rfl, fun _ _ hv => hv, fun _ _ hv => hv, Nat.le_refl _,
        fun _ _ hv => hv, fun _ _ _ => rfl, by simp⟩
    · rename_i st hget
      split at h
      · rename_i f hf
        split at h
        · rename_i S1 tramp heq
          obtain ⟨f1, f2, f3, f4, ⟨lw, hlw⟩, ⟨lg, hlg⟩, f7, f8, f9⟩ :=
            intern_trampoline_type_frame S ty S1 (.ok tramp) heq
          obtain ⟨g1, g2, g3, g4, g5, g6, g7, g8, g9, g10⟩ := ih _ _ _ h
          have hlen1 : S.types.len_types ≤ S1.types.len_types := by
            simp [ModuleTypes.len_types, hlw]
          refine ⟨g1.trans f1, g2.trans f2, g3.trans f3, g4.trans f4, ?_, ?_, ?_, ?_, ?_, g10⟩
          · intro i tyx hv
            have hv1 : S1.types.wasm_types.get? i = some tyx := by
              rw [hlw]
              exact get?_append_some hv
            exact g5 i tyx hv1
          · intro g rg hv
            have hv1 : S1.types.rec_groups.get? g = some rg := by
              rw [hlg]
              exact get?_append_some hv
            exact g6 g rg hv1
          · exact hlen1.trans g7
          · intro κ v hv
            exact g8 κ v (f8 κ v hv)
          · intro i hi hil
            have hity : i < ty := hil ty (List.mem_cons_self ty rest)
            have h2 : S'.types.trampoline_type i =
                alookup ((ty, tramp) :: S1.types.trampolines) i :=
              g9 i (Nat.lt_of_lt_of_le hi hlen1)
                (fun e he => hil e (List.mem_cons_of_mem ty he))
            rw [h2, alookup_cons]
            split
            · rename_i hik
              omega
            · exact f7 i hi
        · rename_i S1 m heq
          obtain ⟨-, -, -, -, -, -, -, -, f9⟩ :=
            intern_trampoline_type_frame S ty S1 (.err m) heq
          exact absurd rfl (f9 m)
        · rename_i S1 m heq
          cases h
          obtain ⟨f1, f2, f3, f4, ⟨lw, hlw⟩, ⟨lg, hlg⟩, f7, f8, f9⟩ :=
            intern_trampoline_type_frame S ty _ _ heq
          refine ⟨f1, f2, f3, f4, ?_, ?_, ?_, f8, ?_, by simp⟩
          · intro i tyx hv
            rw [hlw]
            exact get?_append_some hv
          · intro g rg hv
            rw [hlg]
            exact get?_append_some hv
          · simp [ModuleTypes.len_types, hlw]
          · intro i hi _
            exact f7 i hi
      · obtain ⟨g1, g2, g3, g4, g5, g6, g7, g8, g9, g10⟩ := ih _ _ _ h
        exact ⟨g1, g2, g3, g4, g5, g6, g7, g8,
          fun i hi hil => g9 i hi (fun e he => hil e (List.mem_cons_of_mem ty he)), g10⟩

/-- `start_rec_group` never returns a recoverable error. -/
lemma start_no_err {S S1 : ModuleTypesBuilder} {V : TypesRef} {elems : List Nat}
    {r : Outcome Unit} (h : start_rec_group S V elems = (S1, r)) : ∀ m, r ≠ .err m := by
  rw [start_rec_group] at h
  split at h
  · cases h; simp
  · split at h
    · cases h; simp
    · cases h; simp

/-- `end_rec_group` never returns a recoverable error. -/
lemma end_no_err {S S1 : ModuleTypesBuilder} {gid : Nat} {r : Outcome Nat}
    (h : end_rec_group S gid = (S1, r)) : ∀ m, r ≠ .err m := by
  rw [end_rec_group] at h
  split at h
  · cases h; simp
  · cases h; simp

/-- Inversion of a successful `define_new_rec_group`: the run
decomposes into start, member conversion, close and trampoline
post-pass, all successful. -/
lemma define_ok_inv {S S' : ModuleTypesBuilder} {M : Module} {V : TypesRef} {gid g : Nat}
    (h : define_new_rec_group S M V gid = (S', .ok g)) :
    V.id = S.validator_id ∧
    ∃ S1 S2 S3 tys,
      start_rec_group S V (V.rec_group_elements gid) = (S1, .ok ()) ∧
      convertMembers M V gid S1 (V.rec_group_elements gid) = (S2, .ok ()) ∧
      end_rec_group S2 gid = (S3, .ok g) ∧
      S3.types.rec_group_elements g = some tys ∧
      trampolinePass S3 tys = (S', .ok ()) := by
  rw [define_new_rec_group] at h
  split at h
  · exact absurd (congrArg Prod.snd h) (by simp)
  · rename_i hid
    have hid' : V.id = S.validator_id := by omega
    split at h
    · rename_i S1 u heqS
      split at h
      · rename_i S2 u2 heqC
        split at h
        · rename_i S3 rgi heqE
          split at h
          · rename_i tys heqT
            split at h
            · rename_i S4 u4 heqP
              injection h with h1 h2
              injection h2 with h3
              subst h1
              subst h3
              exact ⟨hid', S1, S2, S3, tys, heqS, heqC, heqE, heqT, heqP⟩
            · exact absurd (congrArg Prod.snd h) (by simp)
            · exact absurd (congrArg Prod.snd h) (by simp)
          · exact absurd (congrArg Prod.snd h) (by simp)
        · exact absurd (congrArg Prod.snd h) (by simp)
        · exact absurd (congrArg Prod.snd h) (by simp)
      · exact absurd (congrArg Prod.snd h) (by simp)
      · exact absurd (congrArg Prod.snd h) (by simp)
    · exact absurd (congrArg Prod.snd h) (by simp)
    · exact absurd (congrArg Prod.snd h) (by simp)

/-- Inversion of a successful `intern_rec_group`: either a cache hit
with no state change, or a fresh definition. -/
lemma intern_ok_inv {S S' : ModuleTypesBuilder} {M : Module} {V : TypesRef} {gid g : Nat}
    (h : intern_rec_group S M V gid = (S', .ok g)) :
    V.id = S.validator_id ∧
    ((alookup S.already_seen gid = some g ∧ S' = S) ∨
     (alookup S.already_seen gid = none ∧ define_new_rec_group S M V gid = (S', .ok g))) := by
  rw [intern_rec_group] at h
  split at h
  · exact absurd (congrArg Prod.snd h) (by simp)
  · rename_i hid
    have hid' : V.id = S.validator_id := by omega
    split at h
    · rename_i interned hseen
      injection h with h1 h2
      injection h2 with h3
      exact ⟨hid', Or.inl ⟨h3 ▸ hseen, h1.symm⟩⟩
    · rename_i hseen
      exact ⟨hid', Or.inr ⟨hseen, h⟩⟩

/-- Inversion of an `intern_rec_group` call that returns a recoverable
error: the error arose in the member-conversion loop, after a cache
miss and a successful `start_rec_group`. -/
lemma intern_err_inv {S S' : ModuleTypesBuilder} {M : Module} {V : TypesRef} {gid : Nat}
    {m : String} (h : intern_rec_group S M V gid = (S', .err m)) :
    V.id = S.validator_id ∧ alookup S.already_seen gid = none ∧
    ∃ S1, start_rec_group S V (V.rec_group_elements gid) = (S1, .ok ()) ∧
      convertMembers M V gid S1 (V.rec_group_elements gid) = (S', .err m) := by
  rw [intern_rec_group] at h
  split at h
  · exact absurd (congrArg Prod.snd h) (by simp)
  · rename_i hid
    have hid' : V.id = S.validator_id := by omega
    split at h
    · exact absurd (congrArg Prod.snd h) (by simp)
    · rename_i hseen
      rw [define_new_rec_group] at h
      split at h
      · exact absurd (congrArg Prod.snd h) (by simp)
      · split at h
        · rename_i S1 u heqS
          split at h
          · rename_i S2 u2 heqC
            split at h
            · rename_i S3 rgi heqE
              split at h
              · rename_i tys heqT
                split at h
                · exact absurd (congrArg Prod.snd h) (by simp)
                · rename_i S4 m4 heqP
                  obtain ⟨-, -, -, -, -, -, -, -, -, hnoerr⟩ :=
                    trampolinePass_frame tys S3 S4 (.err m4) heqP
                  exact absurd rfl (hnoerr m4)
                · exact absurd (congrArg Prod.snd h) (by simp)
              · exact absurd (congrArg Prod.snd h) (by simp)
            · rename_i S3 m3 heqE
              exact absurd rfl (end_no_err heqE m3)
            · exact absurd (congrArg Prod.snd h) (by simp)
          · rename_i S2 m2 heqC
            injection h with h1 h2
            injection h2 with h3
            subst h1
            subst h3
            exact ⟨hid', hseen, S1, heqS, heqC⟩
          · exact absurd (congrArg Prod.snd h) (by simp)
        · rename_i S1 m1 heqS
          exact absurd rfl (start_no_err heqS m1)
        · exact absurd (congrArg Prod.snd h) (by simp)

/-! ## The growth relation -/

/-- Monotone evolution of the builder: the bound session is unchanged,
the canonical store and the group-range sequence only grow (existing
entries, looked up by index, keep their values), trampoline
back-pointers below the base `b` are untouched, trampoline-cache
bindings keep their values, and no group-dedup or type-dedup entry
disappears. -/
structure GrowsFrom (b : Nat) (S S' : ModuleTypesBuilder) : Prop where
  vid_eq : S'.validator_id = S.validator_id
  len_le : S.types.len_types ≤ S'.types.len_types
  types_pres : ∀ i ty, S.types.wasm_types.get? i = some ty →
    S'.types.wasm_types.get? i = some ty
  tramp_pres : ∀ i, i < b →
    S'.types.trampoline_type i = S.types.trampoline_type i
  groups_pres : ∀ g rg, S.types.rec_groups.get? g = some rg →
    S'.types.rec_groups.get? g = some rg
  cache_pres : ∀ κ v, alookup S.trampoline_types κ = some v →
    alookup S'.trampoline_types κ = some v
  seen_pres : ∀ k v, alookup S.already_seen k = some v →
    ∃ v', alookup S'.already_seen k = some v'
  wp_pres : ∀ k v, alookup S.wasmparser_to_wasmtime k = some v →
    ∃ v', alookup S'.wasmparser_to_wasmtime k = some v'

lemma GrowsFrom.rfl (b : Nat) (S : ModuleTypesBuilder) : GrowsFrom b S S :=
  ⟨Eq.refl _, Nat.le_refl _, fun _ _ hv => hv, fun _ _ => Eq.refl _, fun _ _ hv => hv,
    fun _ _ hv => hv, fun k v hv => ⟨v, hv⟩, fun k v hv => ⟨v, hv⟩⟩

lemma GrowsFrom.trans {b : Nat} {S S1 S2 : ModuleTypesBuilder}
    (h1 : GrowsFrom b S S1) (h2 : GrowsFrom b S1 S2) : GrowsFrom b S S2 where
  vid_eq := h2.vid_eq.trans h1.vid_eq
  len_le := h1.len_le.trans h2.len_le
  types_pres := fun i ty hv => h2.types_pres i ty (h1.types_pres i ty hv)
  tramp_pres := fun i hi => (h2.tramp_pres i hi).trans (h1.tramp_pres i hi)
  groups_pres := fun g rg hv => h2.groups_pres g rg (h1.groups_pres g rg hv)
  cache_pres := fun κ v hv => h2.cache_pres κ v (h1.cache_pres κ v hv)
  seen_pres := fun k v hv => by
    obtain ⟨v', hv'⟩ := h1.seen_pres k v hv
    exact h2.seen_pres k v' hv'
  wp_pres := fun k v hv => by
    obtain ⟨v', hv'⟩ := h1.wp_pres k v hv
    exact h2.wp_pres k v' hv'

/-- The reservation loop never deletes a type-dedup binding. -/
lemma alookup_insertReserved_exists :
    ∀ (elems : List Nat) (m : List (Nat × Nat)) (base i k v : Nat),
    alookup m k = some v →
    ∃ v', alookup (insertReserved m base i elems) k = some v' := by
  intro elems
  induction elems with
  | nil => intro m base i k v hv; exact ⟨v, hv⟩
  | cons a rest ih =>
    intro m base i k v hv
    show ∃ v', alookup (insertReserved ((a, base + i) :: m) base (i + 1) rest) k = some v'
    by_cases hka : k = a
    · exact ih ((a, base + i) :: m) base (i + 1) k (base + i)
        (by rw [alookup_cons, if_pos hka])
    · exact ih ((a, base + i) :: m) base (i + 1) k v
        (by rw [alookup_cons, if_neg hka]; exact hv)

/-- A successful `start_rec_group` only grows the builder. -/
lemma grows_start_ok {S S1 : ModuleTypesBuilder} {V : TypesRef} {elems : List Nat}
    {u : Unit} (b : Nat) (h : start_rec_group S V elems = (S1, .ok u)) :
    GrowsFrom b S S1 := by
  obtain ⟨hdef, hid, rfl⟩ := start_ok_inv h
  exact ⟨Eq.refl _, Nat.le_refl _, fun _ _ hv => hv, fun _ _ => Eq.refl _,
    fun _ _ hv => hv, fun _ _ hv => hv, fun k v hv => ⟨v, hv⟩,
    fun k v hv => alookup_insertReserved_exists elems _ _ _ k v hv⟩

/-- The member-conversion loop only grows the builder. -/
lemma grows_convert {S1 S2 : ModuleTypesBuilder} {M : Module} {V : TypesRef}
    {gid : Nat} {ids : List Nat} {r : Outcome Unit} (b : Nat)
    (h : convertMembers M V gid S1 ids = (S2, r)) : GrowsFrom b S1 S2 := by
  obtain ⟨h1, h2, h3, h4, h5, h6, h7, l, hl, -⟩ := convertMembers_spec M V gid ids S1 S2 r h
  refine ⟨h1, ?_, ?_, ?_, ?_, ?_, ?_, ?_⟩
  · simp [ModuleTypes.len_types, hl]
  · intro i ty hv
    rw [hl]
    exact get?_append_some hv
  · intro i hi
    show alookup S2.types.trampolines i = alookup S1.types.trampolines i
    rw [h7]
  · intro g rg hv
    rw [h6]
    exact hv
  · intro κ v hv
    rw [h2]
    exact hv
  · intro k v hv
    rw [h4]
    exact ⟨v, hv⟩
  · intro k v hv
    rw [h3]
    exact ⟨v, hv⟩

/-- A successful `end_rec_group` only grows the builder. -/
lemma grows_end_ok {S2 S3 : ModuleTypesBuilder} {gid g : Nat} (b : Nat)
    (h : end_rec_group S2 gid = (S3, .ok g)) : GrowsFrom b S2 S3 := by
  obtain ⟨rgs, hdef, hg, rfl⟩ := end_ok_inv h
  refine ⟨Eq.refl _, Nat.le_refl _, fun _ _ hv => hv, fun _ _ => Eq.refl _, ?_,
    fun _ _ hv => hv, ?_, fun k v hv => ⟨v, hv⟩⟩
  · intro g' rg hv
    show (S2.types.rec_groups ++ [(rgs.start, rgs.stop)]).get? g' = some rg
    exact get?_append_some hv
  · intro k v hv
    show ∃ v', alookup ((gid, rgs.rec_group_index) :: S2.already_seen) k = some v'
    rw [alookup_cons]
    split
    · exact ⟨rgs.rec_group_index, Eq.refl _⟩
    · exact ⟨v, hv⟩

/-- The trampoline post-pass only grows the builder, provided all
processed member indices lie at or above the base. -/
lemma grows_pass {S3 S4 : ModuleTypesBuilder} {tys : List Nat} {r : Outcome Unit}
    (b : Nat) (hb : b ≤ S3.types.len_types) (he : ∀ e ∈ tys, b ≤ e)
    (h : trampolinePass S3 tys = (S4, r)) : GrowsFrom b S3 S4 := by
  obtain ⟨h1, h2, h3, h4, h5, h6, h7, h8, h9, -⟩ := trampolinePass_frame tys S3 S4 r h
  refine ⟨h1, h7, h5, ?_, h6, h8, ?_, ?_⟩
  · intro i hi
    exact h9 i (Nat.lt_of_lt_of_le hi hb) (fun e hee => Nat.lt_of_lt_of_le hi (he e hee))
  · intro k v hv
    rw [h3]
    exact ⟨v, hv⟩
  · intro k v hv
    rw [h2]
    exact ⟨v, hv⟩

/-- Shape of the state after the start/convert/close stages of a fresh
group definition: the new group gets the next group index, its range
starts at the pre-call store length and spans exactly the checker's
member count, the group is now in the group-dedup table, and the
builder only grew. -/
lemma stages_shape {S S1 S2 S3 : ModuleTypesBuilder} {V : TypesRef} {M : Module} {gid g : Nat}
    (heqS : start_rec_group S V (V.rec_group_elements gid) = (S1, .ok ()))
    (heqC : convertMembers M V gid S1 (V.rec_group_elements gid) = (S2, .ok ()))
    (heqE : end_rec_group S2 gid = (S3, .ok g)) :
    S.defining_rec_group = none ∧
    S3.defining_rec_group = none ∧
    g = S.types.rec_groups.length ∧
    S3.types.rec_groups.get? g =
      some (S.types.len_types, S.types.len_types + (V.rec_group_elements gid).length) ∧
    S3.types.len_types = S.types.len_types + (V.rec_group_elements gid).length ∧
    alookup S3.already_seen gid = some g ∧
    GrowsFrom S.types.len_types S S3 := by
  obtain ⟨hdef, -, hS1⟩ := start_ok_inv heqS
  obtain ⟨-, -, -, c4, c5, c6, c7, l, hl, hlen⟩ :=
    convertMembers_spec M V gid (V.rec_group_elements gid) S1 S2 (.ok ()) heqC
  obtain ⟨rgs, hdef2, hg, hS3⟩ := end_ok_inv heqE
  have hlength := hlen (Eq.refl _)
  have hS1types : S1.types = S.types := by rw [hS1]
  have hS1def : S1.defining_rec_group =
      some ⟨S.types.next_rec_group, S.types.next_ty,
        S.types.len_types + (V.rec_group_elements gid).length⟩ := by
    rw [hS1]
  have hrgs : rgs = ⟨S.types.next_rec_group, S.types.next_ty,
      S.types.len_types + (V.rec_group_elements gid).length⟩ := by
    have h2 : S2.defining_rec_group = some ⟨S.types.next_rec_group, S.types.next_ty,
        S.types.len_types + (V.rec_group_elements gid).length⟩ := by
      rw [c5, hS1def]
    rw [h2] at hdef2
    injection hdef2 with hh
    exact hh.symm
  have hgv : g = S.types.rec_groups.length := by
    rw [hg, hrgs]
    rfl
  have hS2groups : S2.types.rec_groups = S.types.rec_groups := by
    rw [c6, hS1types]
  have hS2wasm : S2.types.wasm_types = S.types.wasm_types ++ l := by
    rw [hl, hS1types]
  have hS3groups : S3.types.rec_groups =
      S.types.rec_groups ++ [(S.types.len_types, S.types.len_types +
        (V.rec_group_elements gid).length)] := by
    rw [hS3]
    show S2.types.rec_groups ++ [(rgs.start, rgs.stop)] = _
    rw [hS2groups, hrgs]
    rfl
  have hS3get : S3.types.rec_groups.get? g =
      some (S.types.len_types, S.types.len_types + (V.rec_group_elements gid).length) := by
    rw [hS3groups, hgv]
    exact List.get?_concat_length _ _
  have hS3len : S3.types.len_types = S.types.len_types +
      (V.rec_group_elements gid).length := by
    have : S3.types.wasm_types = S2.types.wasm_types := by rw [hS3]; rfl
    rw [ModuleTypes.len_types, this, hS2wasm]
    simp [ModuleTypes.len_types, hlength]
  have hS3seen : alookup S3.already_seen gid = some g := by
    have : S3.already_seen = (gid, rgs.rec_group_index) :: S2.already_seen := by rw [hS3]
    rw [this, alookup_cons, if_pos (Eq.refl _), hg]
  have hS3def : S3.defining_rec_group = none := by rw [hS3]
  exact ⟨hdef, hS3def, hgv, hS3get, hS3len, hS3seen,
    ((grows_start_ok _ heqS).trans (grows_convert _ heqC)).trans (grows_end_ok _ heqE)⟩

/-- Any outcome of `define_new_rec_group` leaves a builder that only
grew from the input state. -/
lemma define_any_grows {S S' : ModuleTypesBuilder} {M : Module} {V : TypesRef}
    {gid : Nat} {r : Outcome Nat} (h : define_new_rec_group S M V gid = (S', r)) :
    GrowsFrom S.types.len_types S S' := by
  rw [define_new_rec_group] at h
  split at h
  · cases h
    exact GrowsFrom.rfl _ _
  · split at h
    · rename_i S1 u heqS
      split at h
      · rename_i S2 u2 heqC
        split at h
        · rename_i S3 rgi heqE
          obtain ⟨-, -, hgv, hS3get, hS3len, -, hgrow3⟩ := stages_shape heqS heqC heqE
          split at h
          · rename_i tys heqT
            have htys : tys = List.range' S.types.len_types
                (V.rec_group_elements gid).length := by
              rw [ModuleTypes.rec_group_elements, hS3get] at heqT
              simp only [Option.map_some'] at heqT
              injection heqT with hh
              rw [← hh]
              simp
            have hb : S.types.len_types ≤ S3.types.len_types := by omega
            have he : ∀ e ∈ tys, S.types.len_types ≤ e := by
              intro e hee
              rw [htys] at hee
              exact (List.mem_range'_1.1 hee).1
            split at h
            · rename_i S4 u4 heqP
              cases h
              exact hgrow3.trans (grows_pass _ hb he heqP)
            · rename_i S4 m4 heqP
              cases h
              exact hgrow3.trans (grows_pass _ hb he heqP)
            · rename_i S4 m4 heqP
              cases h
              exact hgrow3.trans (grows_pass _ hb he heqP)
          · cases h
            exact hgrow3
        · rename_i S3 m3 heqE
          exact absurd rfl (end_no_err heqE m3)
        · rename_i S3 m3 heqE
          rw [end_rec_group] at heqE
          split at heqE
          · cases heqE
            cases h
            exact (grows_start_ok _ heqS).trans (grows_convert _ heqC)
          · exact absurd (congrArg Prod.snd heqE) (by simp)
      · rename_i S2 m2 heqC
        cases h
        exact (grows_start_ok _ heqS).trans (grows_convert _ heqC)
      · rename_i S2 m2 heqC
        cases h
        exact (grows_start_ok _ heqS).trans (grows_convert _ heqC)
    · rename_i S1 m1 heqS
      exact absurd rfl (start_no_err heqS m1)
    · rename_i S1 m1 heqS
      rw [start_rec_group] at heqS
      split at heqS
      · cases heqS
        cases h
        exact GrowsFrom.rfl _ _
      · exact absurd (congrArg Prod.snd heqS) (by simp)

/-- Any outcome of `intern_rec_group` leaves a builder that only grew
from the input state. -/
lemma intern_any_grows {S S' : ModuleTypesBuilder} {M : Module} {V : TypesRef}
    {gid : Nat} {r : Outcome Nat} (h : intern_rec_group S M V gid = (S', r)) :
    GrowsFrom S.types.len_types S S' := by
  rw [intern_rec_group] at h
  split at h
  · cases h
    exact GrowsFrom.rfl _ _
  · split at h
    · cases h
      exact GrowsFrom.rfl _ _
    · exact define_any_grows h

/-- After a successful `intern_rec_group`, the group id is bound to the
returned index in the group-dedup table. -/
lemma intern_ok_seen {S S' : ModuleTypesBuilder} {M : Module} {V : TypesRef} {gid g : Nat}
    (h : intern_rec_group S M V gid = (S', .ok g)) :
    alookup S'.already_seen gid = some g := by
  obtain ⟨hid, hc | hf⟩ := intern_ok_inv h
  · obtain ⟨hseen, rfl⟩ := hc
    exact hseen
  · obtain ⟨hseen, hdef⟩ := hf
    obtain ⟨-, S1, S2, S3, tys, heqS, heqC, heqE, heqT, heqP⟩ := define_ok_inv hdef
    obtain ⟨-, -, -, -, -, hS3seen, -⟩ := stages_shape heqS heqC heqE
    obtain ⟨-, -, hseenP, -⟩ := trampolinePass_frame tys S3 S' (.ok ()) heqP
    rw [hseenP]
    exact hS3seen

/-! ## Claim theorems: C4, C2, C8 -/

/-- C4: for every source group id, calling `intern_rec_group` a second
time with the same id returns the same interned rec-group index as the
first call and leaves the whole builder state (the canonical store,
its group ranges, and all dedup tables) exactly unchanged: the second
call returns the untouched state `S'` itself. -/
theorem C4_intern_rec_group_idempotent (S S' : ModuleTypesBuilder) (M : Module)
    (V : TypesRef) (gid g : Nat) (h : intern_rec_group S M V gid = (S', .ok g)) :
    intern_rec_group S' M V gid = (S', .ok g) := by
  have hid : V.id = S.validator_id := (intern_ok_inv h).1
  have hvid : S'.validator_id = S.validator_id := (intern_any_grows h).vid_eq
  have hseen := intern_ok_seen h
  rw [intern_rec_group, if_neg (by rw [hvid]; omega), hseen]

/-- C2: a freshly interned (closed) recursion group gets as elements
exactly the contiguous canonical indices `[start, start + n)` in the
checker's declared member order, where `start` is the pre-call store
length and `n` the number of members the checker enumerates; and any
later interning call preserves the recorded elements of every
already-closed group. -/
theorem C2_rec_group_elements_contiguous (S S' : ModuleTypesBuilder) (M : Module)
    (V : TypesRef) (gid g : Nat)
    (hnew : alookup S.already_seen gid = none)
    (h : intern_rec_group S M V gid = (S', .ok g)) :
    S'.types.rec_groups.get? g =
      some (S.types.len_types, S.types.len_types + (V.rec_group_elements gid).length) ∧
    S'.rec_group_elements g =
      some (List.range' S.types.len_types (V.rec_group_elements gid).length) ∧
    (∀ (S2 : ModuleTypesBuilder) (M2 : Module) (V2 : TypesRef) (gid2 : Nat)
      (r : Outcome Nat) (g' : Nat) (l : List Nat),
      intern_rec_group S' M2 V2 gid2 = (S2, r) →
      S'.rec_group_elements g' = some l → S2.rec_group_elements g' = some l) := by
  obtain ⟨hid, hc | hf⟩ := intern_ok_inv h
  · obtain ⟨hseen, -⟩ := hc
    rw [hseen] at hnew
    exact Option.noConfusion hnew
  · obtain ⟨-, hdef⟩ := hf
    obtain ⟨-, S1, S2, S3, tys, heqS, heqC, heqE, heqT, heqP⟩ := define_ok_inv hdef
    obtain ⟨-, -, -, hS3get, -, -, -⟩ := stages_shape heqS heqC heqE
    obtain ⟨-, -, -, -, -, hgroupsP, -⟩ := trampolinePass_frame tys S3 S' (.ok ()) heqP
    have hget : S'.types.rec_groups.get? g =
        some (S.types.len_types, S.types.len_types + (V.rec_group_elements gid).length) :=
      hgroupsP _ _ hS3get
    refine ⟨hget, ?_, ?_⟩
    · rw [ModuleTypesBuilder.rec_group_elements, ModuleTypes.rec_group_elements, hget]
      simp
    · intro S2' M2 V2 gid2 r g' l h2 hl
      rw [ModuleTypesBuilder.rec_group_elements, ModuleTypes.rec_group_elements] at hl ⊢
      obtain ⟨rg, hrg, hmap⟩ := Option.map_eq_some'.1 hl
      rw [(intern_any_grows h2).groups_pres g' rg hrg]
      simp only [Option.map_some']
      rw [hmap]

/-- C8: every `intern_rec_group` call, whatever its outcome, leaves
every pre-existing canonical type entry unchanged (same body at the
same index, same trampoline back-pointer), preserves every recorded
group range, keeps every trampoline-cache binding, and removes no
entry from the group-dedup or type-dedup tables: the builder only
grows. -/
theorem C8_intern_rec_group_monotone (S S' : ModuleTypesBuilder) (M : Module)
    (V : TypesRef) (gid : Nat) (r : Outcome Nat)
    (h : intern_rec_group S M V gid = (S', r)) :
    S.types.len_types ≤ S'.types.len_types ∧
    (∀ i ty, S.types.wasm_types.get? i = some ty →
      S'.types.wasm_types.get? i = some ty) ∧
    (∀ i, i < S.types.len_types →
      S'.types.trampoline_type i = S.types.trampoline_type i) ∧
    (∀ g rg, S.types.rec_groups.get? g = some rg →
      S'.types.rec_groups.get? g = some rg) ∧
    (∀ κ v, alookup S.trampoline_types κ = some v →
      alookup S'.trampoline_types κ = some v) ∧
    (∀ k v, alookup S.already_seen k = some v →
      ∃ v', alookup S'.already_seen k = some v') ∧
    (∀ k v, alookup S.wasmparser_to_wasmtime k = some v →
      ∃ v', alookup S'.wasmparser_to_wasmtime k = some v') := by
  obtain ⟨-, g2, g3, g4, g5, g6, g7, g8⟩ := intern_any_grows h
  exact ⟨g2, g3, g4, g5, g6, g7, g8⟩

/-! ## Claim theorems: C7, C9, C3 -/

/-- C7: immediately after a group's reservation, every member id of
the group is bound in the type-dedup table, the member at position `i`
mapping to canonical index `next_free_index + i`; and the whole
member-conversion phase (up to the group's close) leaves the
type-dedup table untouched, so the invariant persists until the group
is closed. -/
theorem C7_eager_reservation (S S' : ModuleTypesBuilder) (V : TypesRef)
    (elems : List Nat) (hnd : elems.Nodup)
    (h : start_rec_group S V elems = (S', .ok ())) :
    (∀ (i : Nat) (hi : i < elems.length),
      alookup S'.wasmparser_to_wasmtime (elems.get ⟨i, hi⟩) =
        some (S.types.len_types + i)) ∧
    ∀ (M : Module) (gid : Nat) (ids : List Nat) (S2 : ModuleTypesBuilder)
      (r : Outcome Unit), convertMembers M V gid S' ids = (S2, r) →
      S2.wasmparser_to_wasmtime = S'.wasmparser_to_wasmtime := by
  obtain ⟨hdef, hid, rfl⟩ := start_ok_inv h
  constructor
  · intro i hi
    show alookup (insertReserved S.wasmparser_to_wasmtime S.types.len_types 0 elems) _ = _
    rw [alookup_insertReserved_get elems hnd _ _ 0 i hi]
    simp
  · intro M gid ids S2 r hc
    exact (convertMembers_spec M V gid ids _ S2 r hc).2.2.1

/-- C9: both public interning operations abort with a fatal fault (a
panic, not a returned error) when the supplied checker session id
differs from the one the builder was constructed with, and do so
without making any state change. -/
theorem C9_session_mismatch_fatal (S : ModuleTypesBuilder) (M : Module) (V : TypesRef)
    (gid id : Nat) (h : V.id ≠ S.validator_id) :
    ((intern_rec_group S M V gid).1 = S ∧
      ∃ m, (intern_rec_group S M V gid).2 = .fatal m) ∧
    ((intern_type S M V id).1 = S ∧
      ∃ m, (intern_type S M V id).2 = .fatal m) := by
  refine ⟨?_, ?_⟩
  · rw [intern_rec_group, if_pos h]
    exact ⟨rfl, _, rfl⟩
  · rw [intern_type]
    by_cases hd : S.defining_rec_group.isSome
    · rw [if_pos hd]
      exact ⟨rfl, _, rfl⟩
    · rw [if_neg hd, if_pos h]
      exact ⟨rfl, _, rfl⟩

/-- C3 (amended): an `intern_rec_group` call that fails partway
through with a recoverable error leaves the group absent from the
group-dedup table, so a retry is not short-circuited by a stale cache
entry; but because the failed call also leaves the builder marked as
mid-definition, the retry (with any checker types of the same
session) aborts with the re-entrant-definition fatal fault instead of
defining the group afresh. -/
theorem C3_failure_non_pollution (S S' : ModuleTypesBuilder) (M M2 : Module)
    (V V2 : TypesRef) (gid : Nat) (m : String)
    (h : intern_rec_group S M V gid = (S', .err m)) (hV2 : V2.id = V.id) :
    alookup S'.already_seen gid = none ∧
    S'.defining_rec_group.isSome = true ∧
    intern_rec_group S' M2 V2 gid = (S', .fatal "already defining a rec group") := by
  obtain ⟨hid, hseen, S1, heqS, heqC⟩ := intern_err_inv h
  obtain ⟨hdef, -, hS1⟩ := start_ok_inv heqS
  obtain ⟨c1, -, -, c4, c5, -, -, -, -⟩ :=
    convertMembers_spec M V gid (V.rec_group_elements gid) S1 S' (.err m) heqC
  have hS'def : S'.defining_rec_group.isSome = true := by
    rw [c5, hS1]
    rfl
  have hS'seen : alookup S'.already_seen gid = none := by
    rw [c4, hS1]
    exact hseen
  have hS'vid : S'.validator_id = S.validator_id := by
    rw [c1, hS1]
  refine ⟨hS'seen, hS'def, ?_⟩
  rw [intern_rec_group, if_neg (by rw [hS'vid, hV2]; omega), hS'seen,
    define_new_rec_group, if_neg (by rw [hS'vid, hV2]; omega),
    start_rec_group, if_pos hS'def]

/-! ## Concrete fixtures for witnesses and counterexamples -/

/-- An empty module type-index table. -/
def emptyModule : Module := ⟨[]⟩

/-- Fixture: recursion group 3 declares one nullary function (id 10)
and one empty struct (id 11). -/
def fixB : TypesRef :=
  { id := 0
    typeOf := fun i =>
      if i = 10 then some ⟨.Func [] []⟩
      else if i = 11 then some ⟨.Struct []⟩
      else none
    rec_group_elements := fun g => if g = 3 then [10, 11] else []
    rec_group_id_of := fun _ => 3 }

/-- Fixture: recursion group 7 declares a struct (id 20) and a struct
whose field uses an unsupported construct (id 21), so its conversion
fails with a recoverable error. -/
def fixC : TypesRef :=
  { id := 0
    typeOf := fun i =>
      if i = 20 then some ⟨.Struct []⟩
      else if i = 21 then some ⟨.Struct [.Unsupported]⟩
      else none
    rec_group_elements := fun g => if g = 7 then [20, 21] else []
    rec_group_id_of := fun _ => 7 }

theorem C4_witness :
    intern_rec_group (ModuleTypesBuilder.new 0) emptyModule fixB 3 =
      ((intern_rec_group (ModuleTypesBuilder.new 0) emptyModule fixB 3).1, .ok 0) ∧
    intern_rec_group (intern_rec_group (ModuleTypesBuilder.new 0) emptyModule fixB 3).1
      emptyModule fixB 3 =
    ((intern_rec_group (ModuleTypesBuilder.new 0) emptyModule fixB 3).1, .ok 0) :=
  ⟨rfl, C4_intern_rec_group_idempotent (ModuleTypesBuilder.new 0)
    (intern_rec_group (ModuleTypesBuilder.new 0) emptyModule fixB 3).1
    emptyModule fixB 3 0 (by rfl)⟩

theorem C2_witness :
    alookup (ModuleTypesBuilder.new 0).already_seen 3 = none ∧
    ((intern_rec_group (ModuleTypesBuilder.new 0) emptyModule fixB 3).1.types.rec_groups.get? 0 =
      some (0, 2) ∧
    (intern_rec_group (ModuleTypesBuilder.new 0) emptyModule fixB 3).1.rec_group_elements 0 =
      some [0, 1] ∧
    (∀ (S2 : ModuleTypesBuilder) (M2 : Module) (V2 : TypesRef) (gid2 : Nat)
      (r : Outcome Nat) (g' : Nat) (l : List Nat),
      intern_rec_group (intern_rec_group (ModuleTypesBuilder.new 0) emptyModule fixB 3).1
        M2 V2 gid2 = (S2, r) →
      (intern_rec_group (ModuleTypesBuilder.new 0) emptyModule fixB 3).1.rec_group_elements g' =
        some l → S2.rec_group_elements g' = some l)) :=
  ⟨rfl, C2_rec_group_elements_contiguous (ModuleTypesBuilder.new 0)
    (intern_rec_group (ModuleTypesBuilder.new 0) emptyModule fixB 3).1
    emptyModule fixB 3 0 rfl (by rfl)⟩

theorem C8_witness :
    intern_rec_group (ModuleTypesBuilder.new 0) emptyModule fixB 3 =
      ((intern_rec_group (ModuleTypesBuilder.new 0) emptyModule fixB 3).1, .ok 0) ∧
    ((ModuleTypesBuilder.new 0).types.len_types ≤
      (intern_rec_group (ModuleTypesBuilder.new 0) emptyModule fixB 3).1.types.len_types ∧
    (∀ i ty, (ModuleTypesBuilder.new 0).types.wasm_types.get? i = some ty →
      (intern_rec_group (ModuleTypesBuilder.new 0) emptyModule fixB 3).1.types.wasm_types.get? i =
        some ty) ∧
    (∀ i, i < (ModuleTypesBuilder.new 0).types.len_types →
      (intern_rec_group (ModuleTypesBuilder.new 0) emptyModule fixB 3).1.types.trampoline_type i =
        (ModuleTypesBuilder.new 0).types.trampoline_type i) ∧
    (∀ g rg, (ModuleTypesBuilder.new 0).types.rec_groups.get? g = some rg →
      (intern_rec_group (ModuleTypesBuilder.new 0) emptyModule fixB 3).1.types.rec_groups.get? g =
        some rg) ∧
    (∀ κ v, alookup (ModuleTypesBuilder.new 0).trampoline_types κ = some v →
      alookup (intern_rec_group (ModuleTypesBuilder.new 0) emptyModule fixB 3).1.trampoline_types κ =
        some v) ∧
    (∀ k v, alookup (ModuleTypesBuilder.new 0).already_seen k = some v →
      ∃ v', alookup (intern_rec_group (ModuleTypesBuilder.new 0) emptyModule fixB 3).1.already_seen k =
        some v') ∧
    (∀ k v, alookup (ModuleTypesBuilder.new 0).wasmparser_to_wasmtime k = some v →
      ∃ v', alookup
        (intern_rec_group (ModuleTypesBuilder.new 0) emptyModule fixB 3).1.wasmparser_to_wasmtime k =
        some v')) :=
  ⟨rfl, C8_intern_rec_group_monotone (ModuleTypesBuilder.new 0)
    (intern_rec_group (ModuleTypesBuilder.new 0) emptyModule fixB 3).1
    emptyModule fixB 3 (.ok 0) (by rfl)⟩

theorem C7_witness :
    ([10, 11] : List Nat).Nodup ∧
    ((∀ (i : Nat) (hi : i < ([10, 11] : List Nat).length),
      alookup (start_rec_group (ModuleTypesBuilder.new 0) fixB [10, 11]).1.wasmparser_to_wasmtime
        (([10, 11] : List Nat).get ⟨i, hi⟩) =
        some ((ModuleTypesBuilder.new 0).types.len_types + i)) ∧
    ∀ (M : Module) (gid : Nat) (ids : List Nat) (S2 : ModuleTypesBuilder)
      (r : Outcome Unit),
      convertMembers M fixB gid (start_rec_group (ModuleTypesBuilder.new 0) fixB [10, 11]).1 ids =
        (S2, r) →
      S2.wasmparser_to_wasmtime =
        (start_rec_group (ModuleTypesBuilder.new 0) fixB [10, 11]).1.wasmparser_to_wasmtime) :=
  ⟨by decide, C7_eager_reservation _ _ _ _ (by decide) rfl⟩

theorem C9_witness :
    (fixB.id ≠ (ModuleTypesBuilder.new 5).validator_id) ∧
    (((intern_rec_group (ModuleTypesBuilder.new 5) emptyModule fixB 3).1 =
        ModuleTypesBuilder.new 5 ∧
      ∃ m, (intern_rec_group (ModuleTypesBuilder.new 5) emptyModule fixB 3).2 = .fatal m) ∧
    ((intern_type (ModuleTypesBuilder.new 5) emptyModule fixB 10).1 =
        ModuleTypesBuilder.new 5 ∧
      ∃ m, (intern_type (ModuleTypesBuilder.new 5) emptyModule fixB 10).2 = .fatal m)) :=
  ⟨by decide, C9_session_mismatch_fatal _ _ _ _ _ (by decide)⟩

/-- C3, the claim as stated is false: after the failed call the group
is indeed absent from the group-dedup table (no stale cache hit), but
the retry with the same group id on the same builder does not proceed
to define the group afresh: it aborts with the re-entrant-definition
fatal fault. -/
theorem C3_counterexample :
    (intern_rec_group (ModuleTypesBuilder.new 0) emptyModule fixC 7).2 =
      .err "unsupported construct" ∧
    alookup (intern_rec_group (ModuleTypesBuilder.new 0) emptyModule fixC 7).1.already_seen 7 =
      none ∧
    intern_rec_group (intern_rec_group (ModuleTypesBuilder.new 0) emptyModule fixC 7).1
      emptyModule fixC 7 =
      ((intern_rec_group (ModuleTypesBuilder.new 0) emptyModule fixC 7).1,
        .fatal "already defining a rec group") :=
  ⟨rfl, rfl, rfl⟩

theorem C3_witness :
    intern_rec_group (ModuleTypesBuilder.new 0) emptyModule fixC 7 =
      ((intern_rec_group (ModuleTypesBuilder.new 0) emptyModule fixC 7).1,
        .err "unsupported construct") ∧
    fixC.id = fixC.id ∧
    (alookup (intern_rec_group (ModuleTypesBuilder.new 0) emptyModule fixC 7).1.already_seen 7 =
      none ∧
    (intern_rec_group (ModuleTypesBuilder.new 0) emptyModule fixC 7).1.defining_rec_group.isSome =
      true ∧
    intern_rec_group (intern_rec_group (ModuleTypesBuilder.new 0) emptyModule fixC 7).1
      emptyModule fixC 7 =
      ((intern_rec_group (ModuleTypesBuilder.new 0) emptyModule fixC 7).1,
        .fatal "already defining a rec group")) :=
  ⟨rfl, rfl, C3_failure_non_pollution (ModuleTypesBuilder.new 0)
    (intern_rec_group (ModuleTypesBuilder.new 0) emptyModule fixC 7).1
    emptyModule emptyModule fixC fixC 7 "unsupported construct" (by rfl) rfl⟩

/-! ## The trampoline invariant -/

lemma normHeapType_idem (h : WasmHeapType) :
    normHeapType (normHeapType h) = normHeapType h := by
  cases h <;> rfl

lemma normValType_idem (v : WasmValType) :
    normValType (normValType v) = normValType v := by
  cases v with
  | Ref n h => simp [normValType, normHeapType_idem]
  | _ => rfl

/-- The ABI normalization is idempotent, so a trampoline signature is
its own trampoline signature. -/
lemma trampolineFuncType_idem (f : WasmFuncType) :
    trampolineFuncType (trampolineFuncType f) = trampolineFuncType f := by
  have hfun : normValType ∘ normValType = normValType := funext normValType_idem
  cases f with
  | mk ps rs => simp [trampolineFuncType, List.map_map, hfun]

lemma sigAt_inv {S : ModuleTypesBuilder} {t : Nat} {f : WasmFuncType}
    (h : S.sigAt t = some f) : S.types.wasm_types.get? t = some ⟨.Func f⟩ := by
  rw [ModuleTypesBuilder.sigAt] at h
  split at h
  · rename_i st hget
    split at h
    · rename_i g hg
      injection h with hh
      subst hh
      rw [ModuleTypes.get] at hget
      cases st with
      | mk c => rw [← hg]; exact hget
    · exact Option.noConfusion h
  · exact Option.noConfusion h

lemma sigAt_of_get {S : ModuleTypesBuilder} {t : Nat} {f : WasmFuncType}
    (h : S.types.wasm_types.get? t = some ⟨.Func f⟩) : S.sigAt t = some f := by
  rw [ModuleTypesBuilder.sigAt, ModuleTypes.get, h]

lemma sigAt_lt {S : ModuleTypesBuilder} {t : Nat} {f : WasmFuncType}
    (h : S.sigAt t = some f) : t < S.types.len_types := by
  obtain ⟨hlt, -⟩ := List.get?_eq_some.1 (sigAt_inv h)
  exact hlt

lemma sigAt_append {S S' : ModuleTypesBuilder} {l : List WasmSubType} {t : Nat}
    {f : WasmFuncType} (hw : S'.types.wasm_types = S.types.wasm_types ++ l)
    (h : S.sigAt t = some f) : S'.sigAt t = some f := by
  have hg : S'.types.wasm_types.get? t = some ⟨.Func f⟩ := by
    rw [hw]
    exact get?_append_some (sigAt_inv h)
  exact sigAt_of_get hg

/-- The bookkeeping invariant tying the trampoline cache to the store
and the back-pointers: every cache binding `κ ↦ v` points at a stored
function type with signature `κ` whose own back-pointer is `v` itself,
and every set back-pointer `t ↦ p` agrees with the cache binding of
`t`'s normalized signature. -/
structure TrampInv (S : ModuleTypesBuilder) : Prop where
  cache_sig : ∀ κ v, alookup S.trampoline_types κ = some v → S.sigAt v = some κ
  cache_fix : ∀ κ v, alookup S.trampoline_types κ = some v →
    S.types.trampoline_type v = some v
  ptr_spec : ∀ t p, S.types.trampoline_type t = some p →
    ∃ f, S.sigAt t = some f ∧
      alookup S.trampoline_types (trampolineFuncType f) = some p

/-- `TrampInv` only depends on the store (up to appending), the
back-pointer table and the trampoline cache. -/
lemma trampinv_stable {S S' : ModuleTypesBuilder} {l : List WasmSubType}
    (hw : S'.types.wasm_types = S.types.wasm_types ++ l)
    (ht : S'.types.trampolines = S.types.trampolines)
    (hc : S'.trampoline_types = S.trampoline_types)
    (inv : TrampInv S) : TrampInv S' where
  cache_sig := fun κ v hv => by
    rw [hc] at hv
    exact sigAt_append hw (inv.cache_sig κ v hv)
  cache_fix := fun κ v hv => by
    rw [hc] at hv
    show alookup S'.types.trampolines v = some v
    rw [ht]
    exact inv.cache_fix κ v hv
  ptr_spec := fun t p hp => by
    have hp' : S.types.trampoline_type t = some p := by
      show alookup S.types.trampolines t = some p
      rw [← ht]
      exact hp
    obtain ⟨f, hf, hcf⟩ := inv.ptr_spec t p hp'
    exact ⟨f, sigAt_append hw hf, by rw [hc]; exact hcf⟩

/-- Full case analysis of a successful `intern_trampoline_type` on a
function-typed index. -/
lemma intern_tramp_cases {S : ModuleTypesBuilder} {ty : Nat} {f : WasmFuncType}
    (hsig : S.sigAt ty = some f) {S1 : ModuleTypesBuilder} {p : Nat}
    (h : intern_trampoline_type S ty = (S1, .ok p)) :
    (alookup S.trampoline_types (trampolineFuncType f) = some p ∧ S1 = S) ∨
    (alookup S.trampoline_types (trampolineFuncType f) = none ∧
      trampolineFuncType f = f ∧ p = ty ∧
      S1 = { S with trampoline_types := (f, ty) :: S.trampoline_types }) ∨
    (alookup S.trampoline_types (trampolineFuncType f) = none ∧
      trampolineFuncType f ≠ f ∧ p = S.types.len_types ∧
      S1 = { S with
        types := ((S.types.push ⟨.Func (trampolineFuncType f)⟩).set_trampoline_type
            S.types.len_types S.types.len_types).push_rec_group
            (S.types.len_types, S.types.len_types + 1)
        trampoline_types :=
          (trampolineFuncType f, S.types.len_types) :: S.trampoline_types }) := by
  have hget : S.types.get ty = some ⟨.Func f⟩ := sigAt_inv hsig
  rw [intern_trampoline_type, hget] at h
  simp only [] at h
  split at h
  · rename_i idx hhit
    injection h with h1 h2
    injection h2 with h3
    exact Or.inl ⟨h3 ▸ hhit, h1.symm⟩
  · rename_i hmiss
    split at h
    · rename_i heqf
      injection h with h1 h2
      injection h2 with h3
      exact Or.inr (Or.inl ⟨hmiss, heqf, h3.symm, h1.symm⟩)
    · rename_i hneqf
      injection h with h1 h2
      injection h2 with h3
      refine Or.inr (Or.inr ⟨hmiss, hneqf, h3.symm, ?_⟩)
      rw [← h1]
      have hnext : ((S.types.push ⟨.Func (trampolineFuncType f)⟩).set_trampoline_type
          S.types.next_ty S.types.next_ty).next_ty = S.types.len_types + 1 := by
        simp [ModuleTypes.push, ModuleTypes.set_trampoline_type, ModuleTypes.next_ty,
          ModuleTypes.len_types]
      rw [hnext]
      rfl

/-- One step of the trampoline post-pass (interning `ty`'s trampoline
type and then writing `ty`'s back-pointer) preserves the invariant,
provided `ty` is function-typed and its back-pointer is not yet set. -/
lemma trampinv_step {S S1 : ModuleTypesBuilder} {ty p : Nat} {f : WasmFuncType}
    (inv : TrampInv S) (hsig : S.sigAt ty = some f)
    (hnone : S.types.trampoline_type ty = none)
    (h : intern_trampoline_type S ty = (S1, .ok p)) :
    TrampInv { S1 with types := S1.types.set_trampoline_type ty p } := by
  have hty_lt : ty < S.types.len_types := sigAt_lt hsig
  have hnone' : alookup S.types.trampolines ty = none := hnone
  have hvne : ∀ κ v, alookup S.trampoline_types κ = some v → v ≠ ty := by
    intro κ v hv he
    have hfix := inv.cache_fix κ v hv
    rw [he, hnone] at hfix
    exact Option.noConfusion hfix
  rcases intern_tramp_cases hsig h with ⟨hhit, rfl⟩ | ⟨hmiss, heqf, rfl, rfl⟩ |
    ⟨hmiss, hneqf, rfl, rfl⟩
  · -- cache hit: only the back-pointer of `ty` is written
    refine ⟨?_, ?_, ?_⟩
    · intro κ v hv
      exact inv.cache_sig κ v hv
    · intro κ v hv
      show alookup ((ty, p) :: S1.types.trampolines) v = some v
      rw [alookup_cons, if_neg (hvne κ v hv)]
      exact inv.cache_fix κ v hv
    · intro t q hq
      replace hq : alookup ((ty, p) :: S1.types.trampolines) t = some q := hq
      rw [alookup_cons] at hq
      by_cases hts : t = ty
      · rw [if_pos hts] at hq
        injection hq with hq'
        subst hts
        subst hq'
        exact ⟨f, hsig, hhit⟩
      · rw [if_neg hts] at hq
        exact inv.ptr_spec t q hq
  · -- borrowed: the type is its own trampoline, cached under `f`
    refine ⟨?_, ?_, ?_⟩
    · intro κ v hv
      replace hv : alookup ((f, p) :: S.trampoline_types) κ = some v := hv
      rw [alookup_cons] at hv
      by_cases hκ : κ = f
      · rw [if_pos hκ] at hv
        injection hv with hv'
        subst hκ
        subst hv'
        exact hsig
      · rw [if_neg hκ] at hv
        exact inv.cache_sig κ v hv
    · intro κ v hv
      replace hv : alookup ((f, p) :: S.trampoline_types) κ = some v := hv
      rw [alookup_cons] at hv
      show alookup ((p, p) :: S.types.trampolines) v = some v
      rw [alookup_cons]
      by_cases hκ : κ = f
      · rw [if_pos hκ] at hv
        injection hv with hv'
        subst hv'
        rw [if_pos (Eq.refl p)]
      · rw [if_neg hκ] at hv
        rw [if_neg (hvne κ v hv)]
        exact inv.cache_fix κ v hv
    · intro t q hq
      replace hq : alookup ((p, p) :: S.types.trampolines) t = some q := hq
      rw [alookup_cons] at hq
      by_cases hts : t = p
      · rw [if_pos hts] at hq
        injection hq with hq'
        subst hts
        subst hq'
        refine ⟨f, hsig, ?_⟩
        show alookup ((f, _) :: S.trampoline_types) (trampolineFuncType f) = some _
        rw [heqf, alookup_cons, if_pos (Eq.refl f)]
      · rw [if_neg hts] at hq
        obtain ⟨g, hg, hcg⟩ := inv.ptr_spec t q hq
        refine ⟨g, hg, ?_⟩
        show alookup ((f, _) :: S.trampoline_types) (trampolineFuncType g) = some q
        rw [alookup_cons]
        have hgf : trampolineFuncType g ≠ f := by
          intro he
          rw [he, ← heqf, hmiss] at hcg
          exact Option.noConfusion hcg
        rw [if_neg hgf]
        exact hcg
  · -- owned: a fresh trampoline type is pushed at index `len_types`
    have hwasm : ({ S with
        types := ((S.types.push ⟨.Func (trampolineFuncType f)⟩).set_trampoline_type
            S.types.len_types S.types.len_types).push_rec_group
            (S.types.len_types, S.types.len_types + 1)
        trampoline_types :=
          (trampolineFuncType f, S.types.len_types) :: S.trampoline_types } :
        ModuleTypesBuilder).types.wasm_types =
        S.types.wasm_types ++ [⟨.Func (trampolineFuncType f)⟩] := rfl
    have hsig_idx : ∀ N : ModuleTypesBuilder,
        N.types.wasm_types = S.types.wasm_types ++ [⟨.Func (trampolineFuncType f)⟩] →
        N.sigAt S.types.len_types = some (trampolineFuncType f) := by
      intro N hN
      apply sigAt_of_get
      rw [hN]
      exact List.get?_concat_length _ _
    refine ⟨?_, ?_, ?_⟩
    · intro κ v hv
      replace hv : alookup ((trampolineFuncType f, S.types.len_types) ::
        S.trampoline_types) κ = some v := hv
      rw [alookup_cons] at hv
      by_cases hκ : κ = trampolineFuncType f
      · rw [if_pos hκ] at hv
        injection hv with hv'
        subst hκ
        subst hv'
        exact hsig_idx _ rfl
      · rw [if_neg hκ] at hv
        exact sigAt_append hwasm (inv.cache_sig κ v hv)
    · intro κ v hv
      replace hv : alookup ((trampolineFuncType f, S.types.len_types) ::
        S.trampoline_types) κ = some v := hv
      rw [alookup_cons] at hv
      show alookup ((ty, S.types.len_types) :: (S.types.len_types, S.types.len_types) ::
        S.types.trampolines) v = some v
      by_cases hκ : κ = trampolineFuncType f
      · rw [if_pos hκ] at hv
        injection hv with hv'
        subst hv'
        rw [alookup_cons, if_neg (by omega), alookup_cons, if_pos (Eq.refl _)]
      · rw [if_neg hκ] at hv
        have hvlt : v < S.types.len_types := sigAt_lt (inv.cache_sig κ v hv)
        rw [alookup_cons, if_neg (hvne κ v hv), alookup_cons, if_neg (by omega)]
        exact inv.cache_fix κ v hv
    · intro t q hq
      replace hq : alookup ((ty, S.types.len_types) :: (S.types.len_types,
        S.types.len_types) :: S.types.trampolines) t = some q := hq
      rw [alookup_cons] at hq
      by_cases hts : t = ty
      · rw [if_pos hts] at hq
        injection hq with hq'
        subst hts
        subst hq'
        refine ⟨f, sigAt_append hwasm hsig, ?_⟩
        show alookup ((trampolineFuncType f, S.types.len_types) :: S.trampoline_types)
          (trampolineFuncType f) = some S.types.len_types
        rw [alookup_cons, if_pos (Eq.refl _)]
      · rw [if_neg hts, alookup_cons] at hq
        by_cases hti : t = S.types.len_types
        · rw [if_pos hti] at hq
          injection hq with hq'
          subst hti
          subst hq'
          refine ⟨trampolineFuncType f, hsig_idx _ rfl, ?_⟩
          show alookup ((trampolineFuncType f, S.types.len_types) :: S.trampoline_types)
            (trampolineFuncType (trampolineFuncType f)) = some S.types.len_types
          rw [trampolineFuncType_idem, alookup_cons, if_pos (Eq.refl _)]
        · rw [if_neg hti] at hq
          obtain ⟨g, hg, hcg⟩ := inv.ptr_spec t q hq
          refine ⟨g, sigAt_append hwasm hg, ?_⟩
          show alookup ((trampolineFuncType f, S.types.len_types) :: S.trampoline_types)
            (trampolineFuncType g) = some q
          have hgf : trampolineFuncType g ≠ trampolineFuncType f := by
            intro he
            rw [he, hmiss] at hcg
            exact Option.noConfusion hcg
          rw [alookup_cons, if_neg hgf]
          exact hcg

/-- The trampoline post-pass preserves the invariant when run over
distinct indices below the store length whose back-pointers are all
unset. -/
lemma trampinv_pass :
    ∀ (l : List Nat) (S S' : ModuleTypesBuilder) (r : Outcome Unit),
    TrampInv S →
    (∀ e ∈ l, S.types.trampoline_type e = none) →
    (∀ e ∈ l, e < S.types.len_types) →
    l.Nodup →
    trampolinePass S l = (S', r) → TrampInv S' := by
  intro l
  induction l with
  | nil =>
    intro S S' r inv _ _ _ h
    cases h
    exact inv
  | cons ty rest ih =>
    intro S S' r inv hl hlen hnd h
    rw [trampolinePass] at h
    split at h
    · cases h
      exact inv
    · rename_i st hget
      split at h
      · rename_i f hf
        have hget' : S.types.wasm_types.get? ty = some ⟨.Func f⟩ := by
          have hst : st = ⟨.Func f⟩ := by
            cases st
            rw [← hf]
          rw [← hst]
          exact hget
        have hsig : S.sigAt ty = some f := sigAt_of_get hget'
        have hnone : S.types.trampoline_type ty = none := hl ty (List.mem_cons_self ty rest)
        split at h
        · rename_i S1 tramp heq
          have inv2 := trampinv_step inv hsig hnone heq
          obtain ⟨-, -, -, -, ⟨lw, hlw⟩, -, f7, -, -⟩ :=
            intern_trampoline_type_frame S ty S1 (.ok tramp) heq
          have hnotin : ty ∉ rest := (List.nodup_cons.1 hnd).1
          refine ih _ _ _ inv2 ?_ ?_ (List.nodup_cons.1 hnd).2 h
          · intro e he
            have hene : e ≠ ty := fun hee => hnotin (hee ▸ he)
            have helt : e < S.types.len_types := hlen e (List.mem_cons_of_mem ty he)
            show alookup ((ty, tramp) :: S1.types.trampolines) e = none
            rw [alookup_cons, if_neg hene]
            have hpr := f7 e helt
            rw [show S1.types.trampoline_type e = alookup S1.types.trampolines e from rfl] at hpr
            rw [hpr]
            exact hl e (List.mem_cons_of_mem ty he)
          · intro e he
            have helt : e < S.types.len_types := hlen e (List.mem_cons_of_mem ty he)
            have hle : S.types.len_types ≤ S1.types.len_types := by
              simp [ModuleTypes.len_types, hlw]
            show e < S1.types.len_types
            omega
        · rename_i S1 m heq
          obtain ⟨-, -, -, -, -, -, -, -, f9⟩ :=
            intern_trampoline_type_frame S ty S1 (.err m) heq
          exact absurd rfl (f9 m)
        · rename_i S1 m heq
          cases h
          rw [intern_trampoline_type,
            show S.types.get ty = some ⟨.Func f⟩ from hget'] at heq
          simp only [] at heq
          split at heq
          · exact absurd (congrArg Prod.snd heq) (by simp)
          · split at heq
            · exact absurd (congrArg Prod.snd heq) (by simp)
            · exact absurd (congrArg Prod.snd heq) (by simp)
      · exact ih _ _ _ inv (fun e he => hl e (List.mem_cons_of_mem ty he))
          (fun e he => hlen e (List.mem_cons_of_mem ty he)) (List.nodup_cons.1 hnd).2 h

/-- Every `define_new_rec_group` call preserves the trampoline
invariant, whatever its outcome. -/
lemma trampinv_define {S S' : ModuleTypesBuilder} {M : Module} {V : TypesRef}
    {gid : Nat} {r : Outcome Nat} (inv : TrampInv S)
    (h : define_new_rec_group S M V gid = (S', r)) : TrampInv S' := by
  rw [define_new_rec_group] at h
  split at h
  · cases h
    exact inv
  · split at h
    · rename_i S1 u heqS
      obtain ⟨hdef, -, hS1⟩ := start_ok_inv heqS
      have inv1 : TrampInv S1 :=
        trampinv_stable (l := []) (by rw [hS1]; simp) (by rw [hS1]) (by rw [hS1]) inv
      have hS1tramps : S1.types.trampolines = S.types.trampolines := by rw [hS1]
      have hS1len : S1.types.len_types = S.types.len_types := by rw [hS1]
      split at h
      · rename_i S2 u2 heqC
        obtain ⟨-, c2, -, -, -, -, c7, lw2, hlw2, hlen2⟩ :=
          convertMembers_spec M V gid (V.rec_group_elements gid) S1 S2 (.ok ()) heqC
        have inv2 : TrampInv S2 := trampinv_stable hlw2 c7 c2 inv1
        split at h
        · rename_i S3 rgi heqE
          obtain ⟨rgs, hdef2, hg, hS3⟩ := end_ok_inv heqE
          have inv3 : TrampInv S3 :=
            trampinv_stable (l := []) (by rw [hS3]; simp [ModuleTypes.push_rec_group])
              (by rw [hS3]; rfl) (by rw [hS3]) inv2
          have hS3tramps : S3.types.trampolines = S.types.trampolines := by
            have h1 : S3.types.trampolines = S2.types.trampolines := by rw [hS3]; rfl
            rw [h1, c7, hS1tramps]
          obtain ⟨-, -, -, hS3get, hS3len, -, -⟩ := stages_shape heqS heqC heqE
          split at h
          · rename_i tys heqT
            have htys : tys = List.range' S.types.len_types
                (V.rec_group_elements gid).length := by
              rw [ModuleTypes.rec_group_elements, hS3get] at heqT
              simp only [Option.map_some'] at heqT
              injection heqT with hh
              rw [← hh]
              simp
            have hptrnone : ∀ e ∈ tys, S3.types.trampoline_type e = none := by
              intro e he
              have hege : S.types.len_types ≤ e := by
                rw [htys] at he
                exact (List.mem_range'_1.1 he).1
              show alookup S3.types.trampolines e = none
              rw [hS3tramps]
              cases hOpt : S.types.trampoline_type e with
              | none => exact hOpt
              | some p =>
                obtain ⟨g, hg2, -⟩ := inv.ptr_spec e p hOpt
                have := sigAt_lt hg2
                omega
            have hebound : ∀ e ∈ tys, e < S3.types.len_types := by
              intro e he
              rw [htys] at he
              have := (List.mem_range'_1.1 he).2
              omega
            have hndtys : tys.Nodup := by
              rw [htys]
              exact List.nodup_range' _ _ 1 (by omega)
            split at h
            · rename_i S4 u4 heqP
              cases h
              exact trampinv_pass tys S3 _ _ inv3 hptrnone hebound hndtys heqP
            · rename_i S4 m4 heqP
              cases h
              exact trampinv_pass tys S3 _ _ inv3 hptrnone hebound hndtys heqP
            · rename_i S4 m4 heqP
              cases h
              exact trampinv_pass tys S3 _ _ inv3 hptrnone hebound hndtys heqP
          · cases h
            exact inv3
        · rename_i S3 m3 heqE
          exact absurd rfl (end_no_err heqE m3)
        · rename_i S3 m3 heqE
          rw [end_rec_group] at heqE
          split at heqE
          · cases heqE
            cases h
            exact inv2
          · exact absurd (congrArg Prod.snd heqE) (by simp)
      · rename_i S2 m2 heqC
        cases h
        obtain ⟨-, c2, -, -, -, -, c7, lw2, hlw2, -⟩ :=
          convertMembers_spec M V gid (V.rec_group_elements gid) S1 _ _ heqC
        exact trampinv_stable hlw2 c7 c2 inv1
      · rename_i S2 m2 heqC
        cases h
        obtain ⟨-, c2, -, -, -, -, c7, lw2, hlw2, -⟩ :=
          convertMembers_spec M V gid (V.rec_group_elements gid) S1 _ _ heqC
        exact trampinv_stable hlw2 c7 c2 inv1
    · rename_i S1 m1 heqS
      exact absurd rfl (start_no_err heqS m1)
    · rename_i S1 m1 heqS
      rw [start_rec_group] at heqS
      split at heqS
      · cases heqS
        cases h
        exact inv
      · exact absurd (congrArg Prod.snd heqS) (by simp)

/-- Every `intern_rec_group` call preserves the trampoline invariant,
whatever its outcome. -/
lemma trampinv_intern {S S' : ModuleTypesBuilder} {M : Module} {V : TypesRef}
    {gid : Nat} {r : Outcome Nat} (inv : TrampInv S)
    (h : intern_rec_group S M V gid = (S', r)) : TrampInv S' := by
  rw [intern_rec_group] at h
  split at h
  · cases h
    exact inv
  · split at h
    · cases h
      exact inv
    · exact trampinv_define inv h

/-- A fresh builder satisfies the trampoline invariant. -/
lemma trampinv_new (vid : Nat) : TrampInv (ModuleTypesBuilder.new vid) := by
  refine ⟨?_, ?_, ?_⟩
  · intro κ v hv
    exact Option.noConfusion hv
  · intro κ v hv
    exact Option.noConfusion hv
  · intro t p hp
    exact Option.noConfusion hp

/-- Builder states reachable from a fresh builder by a sequence of
`intern_rec_group` calls against a fixed module and checker. -/
inductive Reachable (M : Module) (V : TypesRef) : ModuleTypesBuilder → Prop where
  | base (vid : Nat) : Reachable M V (ModuleTypesBuilder.new vid)
  | step {S S' : ModuleTypesBuilder} {gid : Nat} {r : Outcome Nat} :
      Reachable M V S → intern_rec_group S M V gid = (S', r) → Reachable M V S'

/-- The trampoline invariant holds in every reachable builder state. -/
lemma reachable_trampinv {M : Module} {V : TypesRef} {S : ModuleTypesBuilder}
    (h : Reachable M V S) : TrampInv S := by
  induction h with
  | base vid => exact trampinv_new vid
  | step hR heq ih => exact trampinv_intern ih heq

/-! ## Claim theorems: C5, C6, C10, C1 -/

/-- Fixture: recursion group 0 declares two structurally identical
nullary functions (ids 30 and 31), as real wasm allows with
`(rec (type (func)) (type (func)))`. -/
def fixA : TypesRef :=
  { id := 0
    typeOf := fun i => if i = 30 ∨ i = 31 then some ⟨.Func [] []⟩ else none
    rec_group_elements := fun g => if g = 0 then [30, 31] else []
    rec_group_id_of := fun _ => 0 }

/-- C5, the claim as stated is false: canonical type 1 is a function
whose ABI-normalized signature equals its own signature, yet its
recorded trampoline index is 0, not 1 itself: `intern_trampoline_type`
consults the value-keyed cache first, so the structurally identical
earlier function wins. -/
theorem C5_counterexample :
    (intern_rec_group (ModuleTypesBuilder.new 0) emptyModule fixA 0).2 = .ok 0 ∧
    (intern_rec_group (ModuleTypesBuilder.new 0) emptyModule fixA 0).1.sigAt 1 =
      some ⟨[], []⟩ ∧
    trampolineFuncType ⟨[], []⟩ = ⟨[], []⟩ ∧
    (intern_rec_group (ModuleTypesBuilder.new 0) emptyModule fixA 0).1.trampoline_type 1 =
      some 0 ∧
    (0 : Nat) ≠ 1 :=
  ⟨rfl, rfl, rfl, rfl, by omega⟩

/-- C5 (amended): in every reachable builder state, for every
function-shaped canonical type `t` with signature `f` and recorded
trampoline `p`: if the ABI-normalized signature differs from `f` then
`p ≠ t`; the type stored at `p` is a function whose signature is the
normalized signature (so when the normalized form equals `f` itself
the trampoline carries `t`'s own signature, though it may be an
earlier structurally identical canonical index rather than `t`); and
trampolines are fixed points: `trampoline_type p = p`. -/
theorem C5_trampoline_fixed_point (M : Module) (V : TypesRef) (S : ModuleTypesBuilder)
    (hR : Reachable M V S) (t p : Nat) (f : WasmFuncType)
    (hsig : S.sigAt t = some f) (hp : S.trampoline_type t = some p) :
    (trampolineFuncType f ≠ f → p ≠ t) ∧
    S.sigAt p = some (trampolineFuncType f) ∧
    S.trampoline_type p = some p := by
  have inv := reachable_trampinv hR
  have hp' : S.types.trampoline_type t = some p := hp
  obtain ⟨g, hg, hcg⟩ := inv.ptr_spec t p hp'
  rw [hsig] at hg
  injection hg with hg'
  subst hg'
  have hsigp := inv.cache_sig _ p hcg
  refine ⟨?_, hsigp, inv.cache_fix _ p hcg⟩
  intro hne he
  subst he
  rw [hsig] at hsigp
  injection hsigp with hh
  exact hne hh.symm

theorem C5_witness :
    Reachable emptyModule fixB
      (intern_rec_group (ModuleTypesBuilder.new 0) emptyModule fixB 3).1 ∧
    (intern_rec_group (ModuleTypesBuilder.new 0) emptyModule fixB 3).1.sigAt 0 =
      some ⟨[], []⟩ ∧
    (intern_rec_group (ModuleTypesBuilder.new 0) emptyModule fixB 3).1.trampoline_type 0 =
      some 0 ∧
    ((trampolineFuncType ⟨[], []⟩ ≠ ⟨[], []⟩ → (0 : Nat) ≠ 0) ∧
    (intern_rec_group (ModuleTypesBuilder.new 0) emptyModule fixB 3).1.sigAt 0 =
      some (trampolineFuncType ⟨[], []⟩) ∧
    (intern_rec_group (ModuleTypesBuilder.new 0) emptyModule fixB 3).1.trampoline_type 0 =
      some 0) :=
  have hR : Reachable emptyModule fixB
      (intern_rec_group (ModuleTypesBuilder.new 0) emptyModule fixB 3).1 :=
    Reachable.step (Reachable.base 0)
      (rfl : intern_rec_group (ModuleTypesBuilder.new 0) emptyModule fixB 3 =
        ((intern_rec_group (ModuleTypesBuilder.new 0) emptyModule fixB 3).1,
         (intern_rec_group (ModuleTypesBuilder.new 0) emptyModule fixB 3).2))
  ⟨hR, rfl, rfl,
    C5_trampoline_fixed_point emptyModule fixB
      (intern_rec_group (ModuleTypesBuilder.new 0) emptyModule fixB 3).1
      hR 0 0 ⟨[], []⟩ rfl rfl⟩

/-- C6: in every reachable builder state, any two distinct interned
function types whose ABI-normalized signatures are equal as values
have the same recorded trampoline index: the cache is keyed by the
derived signature's value, not by the original type's identity. -/
theorem C6_trampoline_sharing (M : Module) (V : TypesRef) (S : ModuleTypesBuilder)
    (hR : Reachable M V S) (t1 t2 p1 p2 : Nat) (f1 f2 : WasmFuncType)
    (_hne : t1 ≠ t2)
    (h1 : S.sigAt t1 = some f1) (h2 : S.sigAt t2 = some f2)
    (hp1 : S.trampoline_type t1 = some p1) (hp2 : S.trampoline_type t2 = some p2)
    (hnorm : trampolineFuncType f1 = trampolineFuncType f2) : p1 = p2 := by
  have inv := reachable_trampinv hR
  obtain ⟨g1, hg1, hcg1⟩ := inv.ptr_spec t1 p1 hp1
  obtain ⟨g2, hg2, hcg2⟩ := inv.ptr_spec t2 p2 hp2
  rw [h1] at hg1
  injection hg1 with hg1'
  subst hg1'
  rw [h2] at hg2
  injection hg2 with hg2'
  subst hg2'
  rw [hnorm, hcg2] at hcg1
  injection hcg1 with hh
  exact hh.symm

/-- Fixture: recursion group 0 declares two functions with different
signatures (a non-nullable and a nullable funcref parameter) that
normalize to the same trampoline signature. -/
def fixE : TypesRef :=
  { id := 0
    typeOf := fun i =>
      if i = 40 then some ⟨.Func [.Ref false .Func] []⟩
      else if i = 41 then some ⟨.Func [.Ref true .Func] []⟩
      else none
    rec_group_elements := fun g => if g = 0 then [40, 41] else []
    rec_group_id_of := fun _ => 0 }

theorem C6_witness :
    Reachable emptyModule fixE
      (intern_rec_group (ModuleTypesBuilder.new 0) emptyModule fixE 0).1 ∧
    (0 : Nat) ≠ 1 ∧
    (intern_rec_group (ModuleTypesBuilder.new 0) emptyModule fixE 0).1.sigAt 0 =
      some ⟨[.Ref false .Func], []⟩ ∧
    (intern_rec_group (ModuleTypesBuilder.new 0) emptyModule fixE 0).1.sigAt 1 =
      some ⟨[.Ref true .Func], []⟩ ∧
    (intern_rec_group (ModuleTypesBuilder.new 0) emptyModule fixE 0).1.trampoline_type 0 =
      some 2 ∧
    (intern_rec_group (ModuleTypesBuilder.new 0) emptyModule fixE 0).1.trampoline_type 1 =
      some 2 ∧
    trampolineFuncType ⟨[.Ref false .Func], []⟩ =
      trampolineFuncType ⟨[.Ref true .Func], []⟩ ∧
    (2 : Nat) = 2 :=
  have hR : Reachable emptyModule fixE
      (intern_rec_group (ModuleTypesBuilder.new 0) emptyModule fixE 0).1 :=
    Reachable.step (Reachable.base 0)
      (rfl : intern_rec_group (ModuleTypesBuilder.new 0) emptyModule fixE 0 =
        ((intern_rec_group (ModuleTypesBuilder.new 0) emptyModule fixE 0).1,
         (intern_rec_group (ModuleTypesBuilder.new 0) emptyModule fixE 0).2))
  ⟨hR, by omega, rfl, rfl, rfl, rfl, rfl,
    C6_trampoline_sharing emptyModule fixE
      (intern_rec_group (ModuleTypesBuilder.new 0) emptyModule fixE 0).1
      hR 0 1 2 2 ⟨[.Ref false .Func], []⟩ ⟨[.Ref true .Func], []⟩
      (by omega) rfl rfl rfl rfl rfl⟩

/-- C10: when `intern_trampoline_type` processes a function type whose
derived trampoline signature equals its own signature and that
signature is not yet cached, it appends no new canonical type and
records the signature-value-to-own-index binding; any function type
(in any state) whose derived signature is bound in the cache receives
the bound index — not its own — as its trampoline; and cache bindings
survive every later `intern_rec_group` call with their value intact. -/
theorem C10_trampoline_first_wins :
    (∀ (S : ModuleTypesBuilder) (t : Nat) (f : WasmFuncType),
      S.sigAt t = some f → trampolineFuncType f = f →
      alookup S.trampoline_types f = none →
      intern_trampoline_type S t =
        ({ S with trampoline_types := (f, t) :: S.trampoline_types }, .ok t)) ∧
    (∀ (S' : ModuleTypesBuilder) (t' v : Nat) (g : WasmFuncType),
      S'.sigAt t' = some g →
      alookup S'.trampoline_types (trampolineFuncType g) = some v →
      intern_trampoline_type S' t' = (S', .ok v)) ∧
    (∀ (S S' : ModuleTypesBuilder) (M : Module) (V : TypesRef) (gid : Nat)
      (r : Outcome Nat) (κ : WasmFuncType) (v : Nat),
      alookup S.trampoline_types κ = some v →
      intern_rec_group S M V gid = (S', r) →
      alookup S'.trampoline_types κ = some v) := by
  refine ⟨?_, ?_, ?_⟩
  · intro S t f hsig hid hnone
    rw [intern_trampoline_type, show S.types.get t = some ⟨.Func f⟩ from sigAt_inv hsig]
    simp only [hid, hnone]
    simp
  · intro S' t' v g hsig hcache
    rw [intern_trampoline_type, show S'.types.get t' = some ⟨.Func g⟩ from sigAt_inv hsig]
    simp only [hcache]
  · intro S S' M V gid r κ v hv h
    exact (intern_any_grows h).cache_pres κ v hv

/-- Fixture: a hand-built builder state holding one nullary function
type at index 0 (its own rec group), with an empty trampoline cache
and no back-pointer yet. -/
def preTramp : ModuleTypesBuilder :=
  { validator_id := 0
    types := ⟨[⟨.Func ⟨[], []⟩⟩], [(0, 1)], []⟩
    trampoline_types := []
    wasmparser_to_wasmtime := [(50, 0)]
    already_seen := [(9, 0)]
    defining_rec_group := none }

theorem C10_witness :
    (preTramp.sigAt 0 = some ⟨[], []⟩ ∧
      trampolineFuncType ⟨[], []⟩ = ⟨[], []⟩ ∧
      alookup preTramp.trampoline_types ⟨[], []⟩ = none ∧
      intern_trampoline_type preTramp 0 =
        ({ preTramp with trampoline_types := (⟨[], []⟩, 0) :: preTramp.trampoline_types },
          .ok 0)) ∧
    ((intern_trampoline_type preTramp 0).1.sigAt 0 = some ⟨[], []⟩ ∧
      alookup (intern_trampoline_type preTramp 0).1.trampoline_types
        (trampolineFuncType ⟨[], []⟩) = some 0 ∧
      intern_trampoline_type (intern_trampoline_type preTramp 0).1 0 =
        ((intern_trampoline_type preTramp 0).1, .ok 0)) ∧
    (alookup (intern_trampoline_type preTramp 0).1.trampoline_types ⟨[], []⟩ = some 0 ∧
      alookup (intern_rec_group (intern_trampoline_type preTramp 0).1
        emptyModule fixB 3).1.trampoline_types ⟨[], []⟩ = some 0) :=
  ⟨⟨rfl, rfl, rfl, C10_trampoline_first_wins.1 preTramp 0 ⟨[], []⟩ rfl rfl rfl⟩,
   ⟨rfl, rfl, C10_trampoline_first_wins.2.1 (intern_trampoline_type preTramp 0).1
      0 0 ⟨[], []⟩ rfl rfl⟩,
   ⟨rfl, C10_trampoline_first_wins.2.2 (intern_trampoline_type preTramp 0).1
      (intern_rec_group (intern_trampoline_type preTramp 0).1 emptyModule fixB 3).1
      emptyModule fixB 3
      (intern_rec_group (intern_trampoline_type preTramp 0).1 emptyModule fixB 3).2
      ⟨[], []⟩ 0 rfl (by rfl)⟩⟩

/-- Fixture for C1: recursion group 5 declares a struct (id 10), a
function (id 11) whose parameter forward-references the group's third
member, and an array (id 12); the parameter selects how that
reference is written (checker-native id or module-local index). -/
def fixD (refForm : UnpackedIndex) : TypesRef :=
  { id := 0
    typeOf := fun i =>
      if i = 10 then some ⟨.Struct []⟩
      else if i = 11 then some ⟨.Func [.Ref false (.Concrete refForm)] []⟩
      else if i = 12 then some ⟨.Array .I32⟩
      else none
    rec_group_elements := fun g => if g = 5 then [10, 11, 12] else []
    rec_group_id_of := fun _ => 5 }

/-- The module type-index table for the C1 fixture: module type
indices 0, 1, 2 map to interned indices 0, 1, 2. -/
def moduleD : Module := ⟨[0, 1, 2]⟩

/-- C1, demonstrating the code bug in the `UnpackedIndex::Module`
fallback of `lookup_heap_type`: interning the same three-member group
(struct, func, array) where member 1 forward-references member 2,
first with the reference written as a checker-native id and then as a
module-local index.  The id form resolves to `ConcreteArray (Module
2)`: the target's source-side definition (id 12) is an array, and the
array body is indeed stored at canonical index 2.  The module-index
form stores `ConcreteFunc (Module 2)` for the very same group: the
fallback computes the member position as `interned - len_types`
against the store length *during* the fill (here 2 - 1 = 1, member 11
itself, a function) instead of against the group's start index, so
the classification matches neither the target's source-side
definition nor the id-form classification. -/
theorem C1_module_index_misclassification :
    (intern_rec_group (ModuleTypesBuilder.new 0) moduleD (fixD (.Id 12)) 5).2 = .ok 0 ∧
    (intern_rec_group (ModuleTypesBuilder.new 0) moduleD
        (fixD (.Id 12)) 5).1.types.wasm_types.get? 1 =
      some ⟨.Func ⟨[.Ref false (.ConcreteArray (.Module 2))], []⟩⟩ ∧
    (intern_rec_group (ModuleTypesBuilder.new 0) moduleD (fixD (.Module 2)) 5).2 = .ok 0 ∧
    (intern_rec_group (ModuleTypesBuilder.new 0) moduleD
        (fixD (.Module 2)) 5).1.types.wasm_types.get? 1 =
      some ⟨.Func ⟨[.Ref false (.ConcreteFunc (.Module 2))], []⟩⟩ ∧
    (intern_rec_group (ModuleTypesBuilder.new 0) moduleD
        (fixD (.Module 2)) 5).1.types.wasm_types.get? 2 =
      some ⟨.Array .I32⟩ ∧
    (fixD (.Module 2)).typeOf 12 = some ⟨.Array .I32⟩ :=
  ⟨rfl, rfl, rfl, rfl, rfl, rfl⟩

end Wasmtime
